import Mathlib

/-!
# Verification of the alchemy repository's specification

Shallow embedding of the provider handlers and helper functions of the
`alchemy` declarative infrastructure library (Docker `Container` resource,
`EnvFile` resource, Doppler HTTP client retry classification), together with
theorems settling the frozen claims about them.

Conventions of the embedding:
* JavaScript objects / `Map`s are modelled as association lists
  (`List (String × α)`) with JavaScript `Map.set` overwrite semantics;
  JavaScript `Set`s are modelled as deduplicated lists.
* `undefined` / optional fields become `Option`; `x ?? y` becomes
  `Option.getD`; truthiness of an optional boolean becomes `getD false`.
* Machine integers do not overflow in any of the embedded code paths
  (port numbers, HTTP statuses, timestamps), so `Nat` is used directly.
* Asynchronous provider calls are deterministic given a `DockerWorld`
  describing what the Docker daemon would answer; a handler run returns
  its outcome together with the ordered trace of provider calls it issued.
-/

set_option maxHeartbeats 1000000

namespace Alchemy

/-- JavaScript `Map.set` on an association list: if the key is present the
value is updated in place (the original position is kept), otherwise the
pair is appended at the end. -/
def mapSet (l : List (String × α)) (k : String) (v : α) : List (String × α) :=
  match l with
  | [] => [(k, v)]
  | (k0, v0) :: rest =>
    if k0 = k then (k0, v) :: rest else (k0, v0) :: mapSet rest k v

/-- JavaScript `Map.get` / object indexing on an association list. -/
def mapGet (l : List (String × α)) (k : String) : Option α :=
  match l with
  | [] => none
  | (k0, v0) :: rest => if k0 = k then some v0 else mapGet rest k

/-- JavaScript `Map.has`. -/
def mapHas (l : List (String × α)) (k : String) : Bool :=
  match l with
  | [] => false
  | (k0, _) :: rest => k0 = k || mapHas rest k

/-- Key list of an association list. -/
def mapKeys (l : List (String × α)) : List String := l.map Prod.fst

theorem mapKeys_mapSet (l : List (String × α)) (k : String) (v : α) :
    mapKeys (mapSet l k v)
      = if k ∈ mapKeys l then mapKeys l else mapKeys l ++ [k] := by
  induction l with
  | nil => simp [mapSet, mapKeys]
  | cons hd tl ih =>
    obtain ⟨k0, v0⟩ := hd
    by_cases h : k0 = k
    · subst h; simp [mapSet, mapKeys]
    · have hne : k ≠ k0 := fun hh => h hh.symm
      simp only [mapSet, if_neg h, mapKeys, List.map_cons]
      simp only [mapKeys] at ih
      rw [ih]
      by_cases hm : k ∈ List.map Prod.fst tl
      · rw [if_pos hm,
          if_pos (show k ∈ k0 :: List.map Prod.fst tl from List.mem_cons_of_mem _ hm)]
      · rw [if_neg hm, if_neg (by simp [List.mem_cons, hne, hm]), List.cons_append]

theorem mem_mapKeys_mapSet (l : List (String × α)) (k a : String) (v : α) :
    a ∈ mapKeys (mapSet l k v) ↔ a = k ∨ a ∈ mapKeys l := by
  rw [mapKeys_mapSet]
  by_cases hm : k ∈ mapKeys l
  · rw [if_pos hm]
    constructor
    · exact fun h2 => Or.inr h2
    · rintro (rfl | h2)
      · exact hm
      · exact h2
  · rw [if_neg hm]
    simp [List.mem_append, or_comm]

theorem mapKeys_mapSet_nodup (l : List (String × α)) (k : String) (v : α)
    (h : (mapKeys l).Nodup) : (mapKeys (mapSet l k v)).Nodup := by
  rw [mapKeys_mapSet]
  by_cases hm : k ∈ mapKeys l
  · rwa [if_pos hm]
  · rw [if_neg hm]
    simp [List.nodup_append, h, hm]

end Alchemy

namespace Doppler

/-!
## Doppler client (src/alchemy/src/doppler/client.ts)

The retryability classifier passed by `fetchDoppler` to
`withExponentialBackoff`:

```js
(error) => {
  if (!error.status) return true;          // network errors (no status)
  return error.status === 429 || (error.status >= 500 && error.status < 600);
}
```

An error's `status` field is modelled as `Option Nat` (`none` = the field is
absent, i.e. a network-level failure).  JavaScript's `!error.status` is also
true for a present status of `0`; `0` is not an HTTP status (HTTP status
codes are three-digit numbers), so a zero status also carries no HTTP
status.  The match below reproduces the JavaScript falsiness test exactly.
-/

/-- An error as observed by the retry classifier: an optional numeric
`status` field and a message. -/
structure DopplerError where
  status : Option Nat
  message : String
deriving DecidableEq, Repr

/-- The retry classifier of `fetchDoppler`, translated from
src/alchemy/src/doppler/client.ts lines 68-77 (`!error.status` is JavaScript
falsy, hence also true at status `0`). -/
def dopplerIsRetryable (e : DopplerError) : Bool :=
  match e.status with
  | none => true
  | some 0 => true
  | some s => s == 429 || (decide (500 ≤ s) && decide (s < 600))

/-- The claim's notion of "carries no HTTP status": the status field is
absent, or holds `0`, which is not an HTTP status (HTTP statuses are
three-digit numbers `100..599`). -/
def carriesNoHttpStatus (e : DopplerError) : Prop :=
  e.status = none ∨ e.status = some 0

instance (e : DopplerError) : Decidable (carriesNoHttpStatus e) := by
  unfold carriesNoHttpStatus; infer_instance

/-- Modelled from the spec: `withExponentialBackoff` (src/util/retry.ts is
not part of the excerpt).  §4.6: "Retries while `isRetryable(error)` is true
and an attempt budget remains; ... Non-retryable errors (and exhaustion of
the attempt budget) propagate immediately."  Delays and jitter do not affect
which value is returned, so they are elided.  The operation is indexed by
the attempt number; the result is paired with the number of attempts
issued. -/
def withExponentialBackoff (budget : Nat) (op : Nat → Except E A)
    (isRetryable : E → Bool) : Except E A × Nat :=
  go budget 0
where
  go : Nat → Nat → Except E A × Nat
  | 0, attempt => (op attempt, attempt + 1)
  | fuel + 1, attempt =>
    match op attempt with
    | Except.ok a => (Except.ok a, attempt + 1)
    | Except.error e =>
      if isRetryable e then go fuel (attempt + 1)
      else (Except.error e, attempt + 1)

end Doppler

namespace Docker

/-!
## Docker Container resource (src/alchemy/src/docker/container.ts)

The `Container` handler and its helper functions, translated line by line.
Provider calls (`DockerApi`) are recorded in an ordered trace; their results
are supplied by a `DockerWorld` describing the daemon's answers.
-/

/-- An opaque wrapped sensitive value.  Modelled from the spec:
`src/secret.ts` is not part of the excerpt; §4.5 describes `Secret` as "a
tagged wrapper around a string value". -/
structure Secret where
  unencrypted : String
deriving DecidableEq, Repr

/-- A value that is either a plain string or a `Secret` (the type of
environment-variable values in `ContainerProps`). -/
inductive SecretOrString where
  | plain (s : String)
  | wrapped (v : Secret)
deriving DecidableEq, Repr

/-- Modelled from the spec: `Secret.unwrap` (src/secret.ts is not in the
excerpt).  §4.5: "`unwrap(secretOrPlain) -> string` — unwrap is total
(accepts a plain string too, returning it unchanged)". -/
def Secret.unwrap : SecretOrString → String
  | SecretOrString.plain s => s
  | SecretOrString.wrapped v => v.unencrypted

/-- Port mapping configuration.  `external`/`internal` are `number | string`
in TypeScript and are only ever used through string interpolation, so they
are modelled in their string form. -/
structure PortMapping where
  external : Option String := none
  internal : String
  protocol : Option String := none
deriving DecidableEq, Repr

/-- Volume mapping configuration (`readOnly` is optional in TypeScript;
`volume.readOnly ?` is a truthiness test, so `undefined` behaves as
`false`). -/
structure VolumeMapping where
  hostPath : String
  containerPath : String
  readOnly : Bool := false
deriving DecidableEq, Repr

/-- Network mapping configuration (`aliases` defaults to the empty list). -/
structure NetworkMapping where
  name : String
  aliases : List String := []
deriving DecidableEq, Repr

/-- Duration value: a number (seconds) or a string of a value and a unit.
Values are restricted to naturals (the code's `parseFloat`/multiplications
are exact on them). -/
inductive Duration where
  | secs (n : Nat)
  | str (value : Nat) (unit : String)
deriving DecidableEq, Repr

/-- Healthcheck command: array of arguments or shell string. -/
inductive HCCmd where
  | args (l : List String)
  | shell (s : String)
deriving DecidableEq, Repr

/-- Healthcheck configuration. -/
structure HealthcheckConfig where
  cmd : HCCmd
  interval : Option Duration := none
  timeout : Option Duration := none
  retries : Option Nat := none
  startPeriod : Option Duration := none
  startInterval : Option Duration := none
deriving DecidableEq, Repr

/-- Properties for creating a Docker container.  `image` is modelled as the
already-resolved image reference string (the handler's first step maps
`Image | RemoteImage | string` to `imageRef`). -/
structure ContainerProps where
  image : String
  name : Option String := none
  command : Option (List String) := none
  environment : Option (List (String × SecretOrString)) := none
  ports : Option (List PortMapping) := none
  volumes : Option (List VolumeMapping) := none
  restart : Option String := none
  networks : Option (List NetworkMapping) := none
  removeOnExit : Option Bool := none
  start : Option Bool := none
  healthcheck : Option HealthcheckConfig := none
  adopt : Option Bool := none
deriving DecidableEq, Repr

/-- One `{ HostIp, HostPort }` entry of `HostConfig.PortBindings`. -/
structure PortBindingEntry where
  HostIp : String
  HostPort : String
deriving DecidableEq, Repr

/-- `HostConfig.RestartPolicy`. -/
structure RestartPolicyInfo where
  Name : String
  MaximumRetryCount : Nat
deriving DecidableEq, Repr

/-- `Config.Healthcheck` as reported by `docker inspect` (durations in
nanoseconds). -/
structure HealthcheckInfo where
  Test : Option (List String) := none
  Interval : Option Nat := none
  Timeout : Option Nat := none
  Retries : Option Nat := none
  StartPeriod : Option Nat := none
  StartInterval : Option Nat := none
deriving DecidableEq, Repr

/-- `Config` of an inspected container. -/
structure ConfigInfo where
  Image : String
  Cmd : Option (List String) := none
  Env : Option (List String) := none
  Healthcheck : Option HealthcheckInfo := none
deriving DecidableEq, Repr

/-- `HostConfig` of an inspected container.  `PortBindings` is a JavaScript
object, modelled as an association list with unique keys. -/
structure HostConfigInfo where
  PortBindings : Option (List (String × Option (List PortBindingEntry))) := none
  Binds : Option (List String) := none
  RestartPolicy : RestartPolicyInfo
  AutoRemove : Bool
deriving DecidableEq, Repr

/-- `NetworkSettings` of an inspected container; only the network names
(object keys) are relevant to the embedded code paths. -/
structure NetworkSettingsInfo where
  Networks : Option (List String) := none
deriving DecidableEq, Repr

/-- `State` of an inspected container. -/
structure StateInfo where
  Status : String
deriving DecidableEq, Repr

/-- The result of `docker inspect`.  `CreatedMs` is the epoch-millisecond
value of the ISO `Created` string (`new Date(info.Created).getTime()`); the
ISO-date parse itself is abstracted. -/
structure ContainerInfo where
  Id : String
  CreatedMs : Nat
  State : StateInfo
  Config : ConfigInfo
  HostConfig : HostConfigInfo
  NetworkSettings : NetworkSettingsInfo
deriving DecidableEq, Repr

/-- A JavaScript `Set` built by repeated insertion: deduplicated list in
insertion order. -/
def setAdd (s : List String) (x : String) : List String :=
  if x ∈ s then s else s ++ [x]

/-- Unwrap secrets in given environment variables
(`normalizeEnvironment`). -/
def normalizeEnvironment (environment : Option (List (String × SecretOrString))) :
    List (String × String) :=
  (environment.getD []).map (fun kv => (kv.1, Secret.unwrap kv.2))

/-- Normalize port mappings to a comparable format
(`normalizePortMappings`): a map from `"internal/protocol"` to the desired
external host port (or `none` for a random ephemeral port). -/
def normalizePortMappings (ports : Option (List PortMapping)) :
    List (String × Option String) :=
  (ports.getD []).foldl
    (fun m port =>
      let protocol := port.protocol.getD "tcp"
      let container := port.internal ++ "/" ++ protocol
      Alchemy.mapSet m container port.external)
    []

/-- Normalize volume mappings to a comparable format
(`normalizeVolumeMappings`): the set of `"hostPath:containerPath[:ro]"`
strings. -/
def normalizeVolumeMappings (volumes : Option (List VolumeMapping)) :
    List String :=
  (volumes.getD []).foldl
    (fun s volume =>
      let readOnlyFlag := if volume.readOnly then ":ro" else ""
      setAdd s (volume.hostPath ++ ":" ++ volume.containerPath ++ readOnlyFlag))
    []

/-- Split a container env entry `"K=V"` at the first `=`
(`e.indexOf("=")`, `e.slice`); entries without `=` are dropped by the
caller. -/
def parseEnvEntry (e : String) : Option (String × String) :=
  match e.splitOn "=" with
  | [] => none
  | [_] => none
  | k :: rest => some (k, String.intercalate "=" rest)

/-- Stable insertion of an entry after every entry whose key is not
greater, used by `sortEnvEntries`. -/
def insertEnvEntry (a : String × String) :
    List (String × String) → List (String × String)
  | [] => [a]
  | b :: rest => if a.1 < b.1 then a :: b :: rest else b :: insertEnvEntry a rest

/-- The `localeCompare`-based ascending sort used by `compareEnv`, modelled
as a stable insertion sort under code-point string order (both lists are
sorted with the same comparator, so any fixed total order preserves the
comparison's meaning). -/
def sortEnvEntries (l : List (String × String)) : List (String × String) :=
  l.foldl (fun acc a => insertEnvEntry a acc) []

/-- The container-side entries `compareEnv` compares against: env strings
parsed at the first `=`, filtered to the keys declared in `propsEnv`
(dropping `PATH` and other engine-added variables). -/
def matchedContainerEnv (propsEnv : List (String × String))
    (containerEnv : Option (List String)) : List (String × String) :=
  ((containerEnv.getD []).filterMap parseEnvEntry).filter
    (fun kv => Alchemy.mapHas propsEnv kv.1)

/-- Compare environment variables (`compareEnv`): both sides sorted by key,
compared length-first, then entrywise on key and value. -/
def compareEnv (propsEnv : List (String × String))
    (containerEnv : Option (List String)) : Bool :=
  let propsEntries := sortEnvEntries propsEnv
  let containerEntries := sortEnvEntries
    (matchedContainerEnv propsEnv containerEnv)
  if propsEntries.length ≠ containerEntries.length then false
  else (propsEntries.zip containerEntries).all
    (fun p => p.1.1 == p.2.1 && p.1.2 == p.2.2)

/-- The container-side port map `comparePorts` compares against: the first
binding's host port per exposed container port (`""` meaning none). -/
def containerPortMap
    (containerPorts : Option (List (String × Option (List PortBindingEntry)))) :
    List (String × Option String) :=
  (containerPorts.getD []).foldl
    (fun m kv =>
      match kv.2 with
      | some (b :: _) =>
        Alchemy.mapSet m kv.1 (if b.HostPort = "" then none else some b.HostPort)
      | _ => m)
    []

/-- Compare port bindings (`comparePorts`).  A declared port with no
external host port (`none`) matches any actual host port; an actual binding
whose `HostPort` is `""` is treated as no host port. -/
def comparePorts (propsPorts : Option (List PortMapping))
    (containerPorts : Option (List (String × Option (List PortBindingEntry)))) :
    Bool :=
  let propsMap := normalizePortMappings propsPorts
  let containerMap := containerPortMap containerPorts
  if propsMap.length ≠ containerMap.length then false
  else propsMap.all
    (fun kv =>
      Alchemy.mapHas containerMap kv.1 &&
      match kv.2 with
      | none => true
      | some desired => Alchemy.mapGet containerMap kv.1 == some (some desired))

/-- The container-side bind set `compareVolumes` compares against. -/
def containerBindsSet (containerBinds : Option (List String)) : List String :=
  (containerBinds.getD []).foldl setAdd []

/-- Compare volume bindings (`compareVolumes`): set equality of the
normalized bind strings, computed as equal sizes plus inclusion. -/
def compareVolumes (propsVolumes : Option (List VolumeMapping))
    (containerBinds : Option (List String)) : Bool :=
  let propsSet := normalizeVolumeMappings propsVolumes
  let containerSet := containerBindsSet containerBinds
  if propsSet.length ≠ containerSet.length then false
  else propsSet.all (fun b => containerSet.contains b)

/-- Modelled from the spec: `normalizeDuration` (src/docker/api.ts is not in
the excerpt).  The `Duration` doc comment says a bare number is in seconds
and a string carries its own unit, so a number `n` normalizes to `"ns"` and
a string is returned unchanged; the result is kept as a value/unit pair
(the code's regex re-parse of the normalized string). -/
def normalizeDuration : Duration → Nat × String
  | Duration.secs n => (n, "s")
  | Duration.str v u => (v, u)

/-- `toNanos` inside `compareHealthcheck`: convert a `Duration` to
nanoseconds, `0` for `undefined` or an unrecognized unit. -/
def durationToNanos (d : Option Duration) : Nat :=
  match d with
  | none => 0
  | some d =>
    let vu := normalizeDuration d
    match vu.2 with
    | "ms" => vu.1 * 1000000
    | "s" => vu.1 * 1000000000
    | "m" => vu.1 * 60 * 1000000000
    | "h" => vu.1 * 3600 * 1000000000
    | _ => 0

/-- Compare healthcheck configuration (`compareHealthcheck`). -/
def compareHealthcheck (propsHc : Option HealthcheckConfig)
    (containerHc : Option HealthcheckInfo) : Bool :=
  match propsHc, containerHc with
  | none, none => true
  | none, some _ => false
  | some _, none => false
  | some p, some c =>
    let propsCmd := match p.cmd with
      | HCCmd.args l => String.intercalate " " l
      | HCCmd.shell s => s
    let containerCmd := match c.Test with
      | some t => String.intercalate " " (t.drop 1)
      | none => ""
    propsCmd == containerCmd &&
    durationToNanos p.interval == c.Interval.getD 0 &&
    durationToNanos p.timeout == c.Timeout.getD 0 &&
    p.retries.getD 0 == c.Retries.getD 0 &&
    durationToNanos p.startPeriod == c.StartPeriod.getD 0 &&
    durationToNanos p.startInterval == c.StartInterval.getD 0

/-- Compare restart policy (`compareRestartPolicy`). -/
def compareRestartPolicy (propsRestart : Option String)
    (containerRestart : RestartPolicyInfo) : Bool :=
  propsRestart.getD "no" == containerRestart.Name

/-- The command-change test inside `shouldReplace`:
`props.command.length !== containerCmd.length || !props.command.every((c, i)
=> c === containerCmd[i])`. -/
def commandDiffers (cmd containerCmd : List String) : Bool :=
  cmd.length != containerCmd.length ||
  !((cmd.zip containerCmd).all (fun p => p.1 == p.2))

/-- `shouldReplace`: does the declared configuration require recreating the
container? -/
def shouldReplace (imageRef : String) (props : ContainerProps)
    (containerInfo : ContainerInfo) : Bool :=
  if containerInfo.Config.Image ≠ imageRef then true
  else if (match props.command with
    | some cmd => commandDiffers cmd (containerInfo.Config.Cmd.getD [])
    | none => false) then true
  else if !(compareEnv (normalizeEnvironment props.environment)
      containerInfo.Config.Env) then true
  else if !(comparePorts props.ports containerInfo.HostConfig.PortBindings) then
    true
  else if !(compareVolumes props.volumes containerInfo.HostConfig.Binds) then
    true
  else if !(compareHealthcheck props.healthcheck
      containerInfo.Config.Healthcheck) then true
  else if !(compareRestartPolicy props.restart
      containerInfo.HostConfig.RestartPolicy) then true
  else if (props.removeOnExit.getD false) != containerInfo.HostConfig.AutoRemove
    then true
  else false

/-- `getNetworkChanges`: networks to connect (declared but not currently
connected) and to disconnect (currently connected, not declared, and not the
default `bridge` network).  Returned as `(toConnect, toDisconnect)`. -/
def getNetworkChanges (props : ContainerProps) (containerInfo : ContainerInfo) :
    List NetworkMapping × List String :=
  let currentNetworks := (containerInfo.NetworkSettings.Networks.getD []).foldl
    setAdd []
  let desiredNetworks := (props.networks.getD []).foldl
    (fun m n => Alchemy.mapSet m n.name n) []
  let toDisconnect := currentNetworks.filter
    (fun n => !(Alchemy.mapHas desiredNetworks n) && n != "bridge")
  let toConnect := (desiredNetworks.map Prod.snd).filter
    (fun n => !(currentNetworks.contains n.name))
  (toConnect, toDisconnect)

/-- Phase of a single `apply`. -/
inductive Phase where
  | create
  | update
  | delete
deriving DecidableEq, Repr

/-- The caller-visible Output of the `Container` resource (the `inspect`
closure carries no persisted data and is omitted; `...props` is kept as the
`props` field). -/
structure ContainerOutput where
  id : String
  name : String
  state : String
  createdAt : Nat
  props : ContainerProps
deriving DecidableEq, Repr

/-- The options object passed to `api.createContainer`. -/
structure CreateOptions where
  ports : List (Option String × String)
  env : List (String × String)
  volumes : List (String × String)
  cmd : Option (List String)
  healthcheck : Option HealthcheckConfig
deriving DecidableEq, Repr

/-- One `DockerApi` provider call, as recorded in a handler trace. -/
inductive ApiCall where
  | containerExists (name : String)
  | inspectContainer (name : String)
  | stopContainer (id : String)
  | removeContainer (idOrName : String) (force : Bool)
  | disconnectNetwork (id : String) (network : String)
  | connectNetwork (id : String) (network : String) (aliases : List String)
  | startContainer (id : String)
  | createContainer (image : String) (name : String) (options : CreateOptions)
deriving DecidableEq, Repr

/-- Is a call a remote mutation (anything beyond existence check and
inspection)? -/
def ApiCall.isMutation : ApiCall → Bool
  | ApiCall.containerExists _ => false
  | ApiCall.inspectContainer _ => false
  | _ => true

/-- The Docker daemon's answers for one handler run: whether a container
with the resolved name exists, what inspecting it returns, the id a
`createContainer` call would return, and the current `Date.now()`. -/
structure DockerWorld where
  containerExists : Bool
  containerInfo : ContainerInfo
  createdId : String
  now : Nat
deriving Repr

/-- The slice of the handler `Context` the `Container` handler reads:
`this.phase`, `this.output`, and the value
`this.scope.createPhysicalName(id)` would produce. -/
structure Ctx where
  phase : Phase
  output : Option ContainerOutput
  physicalName : String
deriving Repr

/-- Handler outcome: a returned Output, `this.destroy()`,
`this.replace(force)` (which transfers control to the engine), or a thrown
error. -/
inductive Outcome where
  | ok (out : ContainerOutput)
  | destroyed
  | replaced (force : Bool)
  | errored (message : String)
deriving DecidableEq, Repr

/-- The physical-name resolution
`props.name ?? this.output?.name ?? this.scope.createPhysicalName(id)`. -/
def resolveContainerName (props : ContainerProps)
    (output : Option ContainerOutput) (physicalName : String) : String :=
  props.name.getD ((output.map ContainerOutput.name).getD physicalName)

/-- The port mappings prepared for `api.createContainer` (host port, if any,
and `"internal/protocol"`). -/
def buildPortMappings (ports : Option (List PortMapping)) :
    List (Option String × String) :=
  (ports.getD []).map
    (fun port =>
      let protocol := port.protocol.getD "tcp"
      (port.external, port.internal ++ "/" ++ protocol))

/-- The volume record prepared for `api.createContainer`
(`volumeMappings[hostPath] = containerPath + readOnlyFlag`). -/
def buildVolumeMappings (volumes : Option (List VolumeMapping)) :
    List (String × String) :=
  (volumes.getD []).foldl
    (fun m volume =>
      let readOnlyFlag := if volume.readOnly then ":ro" else ""
      Alchemy.mapSet m volume.hostPath (volume.containerPath ++ readOnlyFlag))
    []

/-- The options object the handler passes to `api.createContainer`
(container.ts lines 421-427). -/
def createOptions (props : ContainerProps) : CreateOptions :=
  { ports := buildPortMappings props.ports
    env := normalizeEnvironment props.environment
    volumes := buildVolumeMappings props.volumes
    cmd := props.command
    healthcheck := props.healthcheck }

/-- The creation tail of the handler (container.ts lines 396-458): create the
container, connect declared networks, optionally start it, and return the
new Output. -/
def createAndStart (w : DockerWorld) (props : ContainerProps)
    (imageRef containerName : String) (trace : List ApiCall) :
    Outcome × List ApiCall :=
  let options := createOptions props
  let containerId := w.createdId
  let trace := trace ++ [ApiCall.createContainer imageRef containerName options]
  let trace := trace ++ (props.networks.getD []).map
    (fun n => ApiCall.connectNetwork containerId n.name n.aliases)
  if props.start.getD false then
    (Outcome.ok { id := containerId, name := containerName, state := "running",
                  createdAt := w.now, props := props },
     trace ++ [ApiCall.startContainer containerId])
  else
    (Outcome.ok { id := containerId, name := containerName, state := "created",
                  createdAt := w.now, props := props },
     trace)

/-- The `Container` resource handler (container.ts lines 290-460), as a pure
function of the context, the daemon's answers, and the props.  Every
`DockerApi` call is appended to the returned trace in issue order. -/
def containerHandler (ctx : Ctx) (w : DockerWorld) (props : ContainerProps) :
    Outcome × List ApiCall :=
  let imageRef := props.image
  let containerName := resolveContainerName props ctx.output ctx.physicalName
  let nameChanged : Bool := match ctx.output with
    | some o => o.name != containerName
    | none => false
  if ctx.phase = Phase.update ∧ nameChanged = true then
    (Outcome.replaced false, [])
  else if ctx.phase = Phase.delete then
    match ctx.output with
    | some o =>
      if o.id ≠ "" then
        (Outcome.destroyed,
         [ApiCall.stopContainer o.id, ApiCall.removeContainer o.id true])
      else (Outcome.destroyed, [])
    | none => (Outcome.destroyed, [])
  else
    let trace := [ApiCall.containerExists containerName]
    if w.containerExists then
      if ctx.phase = Phase.create ∧ props.adopt.getD false = false then
        (Outcome.errored ("Container \"" ++ containerName ++
          "\" already exists. Use adopt: true to adopt it."), trace)
      else
        let trace := trace ++ [ApiCall.inspectContainer containerName]
        let info := w.containerInfo
        if shouldReplace imageRef props info then
          if ctx.phase = Phase.update then (Outcome.replaced true, trace)
          else
            createAndStart w props imageRef containerName
              (trace ++ [ApiCall.removeContainer containerName true])
        else
          let changes := getNetworkChanges props info
          let trace := trace ++ changes.2.map
            (fun n => ApiCall.disconnectNetwork info.Id n)
          let trace := trace ++ changes.1.map
            (fun n => ApiCall.connectNetwork info.Id n.name n.aliases)
          if props.start.getD false = true ∧ info.State.Status ≠ "running" then
            (Outcome.ok { id := info.Id, name := containerName,
                          state := "running", createdAt := info.CreatedMs,
                          props := props },
             trace ++ [ApiCall.startContainer info.Id])
          else
            (Outcome.ok { id := info.Id, name := containerName,
                          state := "created", createdAt := info.CreatedMs,
                          props := props },
             trace)
    else createAndStart w props imageRef containerName trace

end Docker

namespace EnvFile

/-!
## EnvFile resource (src/alchemy/src/env-file.ts)

The handler writes a `.env`-style file from a record of values and returns
the filtered record.  File-system effects are recorded as a trace;
`path.dirname`/`mkdir` handling is elided (it creates directories and never
affects the written content or the returned Output).
-/

/-- A value of the `env` record:
`string | number | boolean | Secret<string> | undefined | null`.
Numbers are restricted to integers (`String(n)` is their exact decimal
form). -/
inductive EnvFileVal where
  | str (s : String)
  | num (n : Int)
  | boolean (b : Bool)
  | secret (s : String)
  | undef
  | nullv
deriving DecidableEq, Repr

/-- JavaScript `value === undefined || value === null`. -/
def isNullish : EnvFileVal → Bool
  | EnvFileVal.undef => true
  | EnvFileVal.nullv => true
  | _ => false

/-- Modelled from the spec: `Secret.unwrap` applied to an `env` value
(src/secret.ts is not in the excerpt).  §4.5: unwrap is total — a `Secret`
yields its plaintext, any other value is returned unchanged. -/
def unwrapVal : EnvFileVal → EnvFileVal
  | EnvFileVal.secret s => EnvFileVal.str s
  | v => v

/-- JavaScript `String(val)`.  The `secret` case is unreachable in the
embedded pipeline (values are unwrapped first); `undef`/`nullv` are likewise
unreachable (entries are filtered first). -/
def valToString : EnvFileVal → String
  | EnvFileVal.str s => s
  | EnvFileVal.num n => toString n
  | EnvFileVal.boolean b => if b then "true" else "false"
  | EnvFileVal.secret _ => "[object Object]"
  | EnvFileVal.undef => "undefined"
  | EnvFileVal.nullv => "null"

/-- The double-quote character. -/
def dquoteChar : Char := Char.ofNat 34

/-- The single-quote character. -/
def squoteChar : Char := Char.ofNat 39

/-- The double-quote character as a string. -/
def dquote : String := String.singleton dquoteChar

/-- Does the value's string form need quoting?
(`includes(" ") || includes("#") || includes("\n") || includes("'") ||
includes('"')`). -/
def needsQuoting (s : String) : Bool :=
  s.contains ' ' || s.contains '#' || s.contains '\n' ||
  s.contains squoteChar || s.contains dquoteChar

/-- `stringVal.replace(/"/g, String.fromCharCode(92, 34))`: escape every
double quote with a backslash. -/
def escapeDquotes (s : String) : String :=
  s.replace dquote ("\\" ++ dquote)

/-- The body of the `.map` over filtered entries: unwrap, re-check for
nullish (the code's redundant safety check), stringify, quote if needed,
and produce the `key=value` line. -/
def envFileLine (kv : String × EnvFileVal) : Option String :=
  let val := unwrapVal kv.2
  if isNullish val then none
  else
    let stringVal := valToString val
    let stringVal :=
      if needsQuoting stringVal then dquote ++ escapeDquotes stringVal ++ dquote
      else stringVal
    some (kv.1 ++ "=" ++ stringVal)

/-- The file content: filter out nullish entries, format each, drop `null`
lines, join with newlines (env-file.ts lines 43-66). -/
def envFileContent (env : List (String × EnvFileVal)) : String :=
  String.intercalate "\n"
    ((env.filter (fun kv => !(isNullish kv.2))).filterMap envFileLine)

/-- `EnvFile` resource props. -/
structure EnvFileProps where
  path : Option String := none
  env : List (String × EnvFileVal)
deriving DecidableEq, Repr

/-- `EnvFile` Output: the written path and the filtered env record. -/
structure EnvFileOutput where
  path : String
  env : List (String × EnvFileVal)
deriving DecidableEq, Repr

/-- One file-system call of the handler. -/
inductive FsCall where
  | unlink (p : String)
  | writeFile (p : String) (content : String)
deriving DecidableEq, Repr

/-- Handler outcome for `EnvFile`. -/
inductive EnvOutcome where
  | ok (out : EnvFileOutput)
  | destroyed
deriving DecidableEq, Repr

/-- The context slice the `EnvFile` handler reads. -/
structure EnvCtx where
  phase : Docker.Phase
  output : Option EnvFileOutput
deriving DecidableEq, Repr

/-- The `EnvFile` resource handler (env-file.ts lines 14-90) as a pure
function; file-system calls are recorded in issue order (directory creation
elided). -/
def envFileHandler (ctx : EnvCtx) (props : EnvFileProps) :
    EnvOutcome × List FsCall :=
  let filePath := props.path.getD ".env"
  if ctx.phase = Docker.Phase.delete then
    (EnvOutcome.destroyed, [FsCall.unlink filePath])
  else
    let oldUnlink : List FsCall :=
      match ctx.output with
      | some o =>
        if ctx.phase = Docker.Phase.update ∧ o.path ≠ filePath then
          [FsCall.unlink o.path]
        else []
      | none => []
    let content := envFileContent props.env
    let filteredEnv := props.env.filter (fun kv => !(isNullish kv.2))
    (EnvOutcome.ok { path := filePath, env := filteredEnv },
     oldUnlink ++ [FsCall.writeFile filePath content])

end EnvFile

namespace Sched

/-!
## Dependency scheduler (`dependsOn`)

Modelled from the spec: the Dependency Scheduler itself (`Resource` engine,
src/resource.ts) is not part of the excerpt — only its tests are
(test/docker/container-depends.test.ts).  §4.3: "`dependsOn` accepts one
pending value or an ordered sequence of pending values ... The handler
invocation is blocked until all referenced values have settled; if any
referenced value fails, the dependent resource's `apply` fails with that
same error and the handler is never invoked."

Each pending value is abstracted to its settled outcome; awaiting is the
sequential traversal of those outcomes, and the run records an event trace
in which a dependency's settling and the handler's start are observable, so
the temporal ordering claim becomes a positional statement about the
trace.
-/

/-- The settled outcome of one pending `dependsOn` value. -/
inductive DepResult (ε α : Type) where
  | ok (a : α)
  | failed (e : ε)
deriving DecidableEq, Repr

/-- An observable event of a scheduled apply. -/
inductive SchedEvent (ε α : Type) where
  | settled (index : Nat) (r : DepResult ε α)
  | handlerStarted
deriving DecidableEq, Repr

/-- Await the dependencies in order, starting at `index`: the result is the
list of settled values or the first failure, together with the settle
events observed. -/
def awaitDeps (index : Nat) :
    List (DepResult ε α) → Except ε (List α) × List (SchedEvent ε α)
  | [] => (Except.ok [], [])
  | d :: rest =>
    match d with
    | DepResult.ok a =>
      let r := awaitDeps (index + 1) rest
      ((r.1.map fun vs => a :: vs), SchedEvent.settled index (DepResult.ok a) :: r.2)
    | DepResult.failed e =>
      (Except.error e, [SchedEvent.settled index (DepResult.failed e)])

/-- Apply a resource under `dependsOn`: wait on every dependency, then (and
only then) start the handler; a dependency failure aborts the apply with
that error and the handler never starts. -/
def applyWithDeps (deps : List (DepResult ε α)) (handler : List α → β) :
    Except ε β × List (SchedEvent ε α) :=
  match awaitDeps 0 deps with
  | (Except.ok vals, evs) =>
    (Except.ok (handler vals), evs ++ [SchedEvent.handlerStarted])
  | (Except.error e, evs) => (Except.error e, evs)

/-- The first failed dependency, if any (the error a `Promise.all`-style
wait rejects with). -/
def firstFailure : List (DepResult ε α) → Option ε
  | [] => none
  | DepResult.ok _ :: rest => firstFailure rest
  | DepResult.failed e :: _ => some e

end Sched

namespace Docker

/-!
## Handler path lemmas

One lemma per reachable branch of `containerHandler`, used by the claim
theorems below.
-/

theorem resolveContainerName_cases (props : ContainerProps)
    (out : Option ContainerOutput) (pn : String) :
    resolveContainerName props out pn
      = match props.name, out with
        | some n, _ => n
        | none, some o => o.name
        | none, none => pn := by
  unfold resolveContainerName
  cases props.name <;> cases out <;> simp

theorem createAndStart_eq (w : DockerWorld) (props : ContainerProps)
    (imageRef name : String) (trace : List ApiCall) :
    createAndStart w props imageRef name trace
      = if props.start.getD false then
          (Outcome.ok ⟨w.createdId, name, "running", w.now, props⟩,
           trace ++ [ApiCall.createContainer imageRef name (createOptions props)]
             ++ (props.networks.getD []).map
               (fun n => ApiCall.connectNetwork w.createdId n.name n.aliases)
             ++ [ApiCall.startContainer w.createdId])
        else
          (Outcome.ok ⟨w.createdId, name, "created", w.now, props⟩,
           trace ++ [ApiCall.createContainer imageRef name (createOptions props)]
             ++ (props.networks.getD []).map
               (fun n => ApiCall.connectNetwork w.createdId n.name n.aliases)) := by
  unfold createAndStart
  split <;> simp

theorem createAndStart_fst_ok (w : DockerWorld) (props : ContainerProps)
    (imageRef name : String) (trace : List ApiCall) :
    ∃ o, (createAndStart w props imageRef name trace).1 = Outcome.ok o := by
  rw [createAndStart_eq]
  split <;> exact ⟨_, rfl⟩

theorem containerHandler_create_fresh (props : ContainerProps) (pn : String)
    (w : DockerWorld) (hex : w.containerExists = false) :
    containerHandler ⟨Phase.create, none, pn⟩ w props
      = createAndStart w props props.image (resolveContainerName props none pn)
          [ApiCall.containerExists (resolveContainerName props none pn)] := by
  unfold containerHandler
  simp [hex]

theorem containerHandler_create_conflict (props : ContainerProps) (pn : String)
    (w : DockerWorld) (hex : w.containerExists = true)
    (hadopt : props.adopt.getD false = false) :
    containerHandler ⟨Phase.create, none, pn⟩ w props
      = (Outcome.errored ("Container \"" ++ resolveContainerName props none pn ++
           "\" already exists. Use adopt: true to adopt it."),
         [ApiCall.containerExists (resolveContainerName props none pn)]) := by
  unfold containerHandler
  simp [hex, hadopt]

theorem containerHandler_create_adopt_replace (props : ContainerProps)
    (pn : String) (w : DockerWorld) (hex : w.containerExists = true)
    (hadopt : props.adopt.getD false = true)
    (hrep : shouldReplace props.image props w.containerInfo = true) :
    containerHandler ⟨Phase.create, none, pn⟩ w props
      = createAndStart w props props.image (resolveContainerName props none pn)
          [ApiCall.containerExists (resolveContainerName props none pn),
           ApiCall.inspectContainer (resolveContainerName props none pn),
           ApiCall.removeContainer (resolveContainerName props none pn) true] := by
  unfold containerHandler
  simp [hex, hadopt, hrep]

theorem containerHandler_create_adopt_keep (props : ContainerProps)
    (pn : String) (w : DockerWorld) (hex : w.containerExists = true)
    (hadopt : props.adopt.getD false = true)
    (hrep : shouldReplace props.image props w.containerInfo = false) :
    containerHandler ⟨Phase.create, none, pn⟩ w props
      = (let cn := resolveContainerName props none pn
         let info := w.containerInfo
         let changes := getNetworkChanges props info
         let base := [ApiCall.containerExists cn, ApiCall.inspectContainer cn]
           ++ changes.2.map (fun n => ApiCall.disconnectNetwork info.Id n)
           ++ changes.1.map
             (fun n => ApiCall.connectNetwork info.Id n.name n.aliases)
         if props.start.getD false = true ∧ info.State.Status ≠ "running" then
           (Outcome.ok ⟨info.Id, cn, "running", info.CreatedMs, props⟩,
            base ++ [ApiCall.startContainer info.Id])
         else (Outcome.ok ⟨info.Id, cn, "created", info.CreatedMs, props⟩, base)) := by
  unfold containerHandler
  simp only [hex, hadopt, hrep]
  split
  · simp_all
  · simp

theorem containerHandler_update_fresh (props : ContainerProps) (pn : String)
    (w : DockerWorld) (o1 : ContainerOutput)
    (hname : resolveContainerName props (some o1) pn = o1.name)
    (hex : w.containerExists = false) :
    containerHandler ⟨Phase.update, some o1, pn⟩ w props
      = createAndStart w props props.image o1.name
          [ApiCall.containerExists o1.name] := by
  unfold containerHandler
  simp [hname, hex]

theorem containerHandler_update_name_replace (props : ContainerProps)
    (pn : String) (w : DockerWorld) (o1 : ContainerOutput)
    (hname : resolveContainerName props (some o1) pn ≠ o1.name) :
    containerHandler ⟨Phase.update, some o1, pn⟩ w props
      = (Outcome.replaced false, []) := by
  unfold containerHandler
  simp [Ne.symm hname]

theorem containerHandler_update_replace (props : ContainerProps) (pn : String)
    (w : DockerWorld) (o1 : ContainerOutput)
    (hname : resolveContainerName props (some o1) pn = o1.name)
    (hex : w.containerExists = true)
    (hrep : shouldReplace props.image props w.containerInfo = true) :
    containerHandler ⟨Phase.update, some o1, pn⟩ w props
      = (Outcome.replaced true,
         [ApiCall.containerExists o1.name, ApiCall.inspectContainer o1.name]) := by
  unfold containerHandler
  simp [hname, hex, hrep]

theorem containerHandler_update_keep (props : ContainerProps) (pn : String)
    (w : DockerWorld) (o1 : ContainerOutput)
    (hname : resolveContainerName props (some o1) pn = o1.name)
    (hex : w.containerExists = true)
    (hrep : shouldReplace props.image props w.containerInfo = false) :
    containerHandler ⟨Phase.update, some o1, pn⟩ w props
      = (let info := w.containerInfo
         let changes := getNetworkChanges props info
         let base := [ApiCall.containerExists o1.name,
             ApiCall.inspectContainer o1.name]
           ++ changes.2.map (fun n => ApiCall.disconnectNetwork info.Id n)
           ++ changes.1.map
             (fun n => ApiCall.connectNetwork info.Id n.name n.aliases)
         if props.start.getD false = true ∧ info.State.Status ≠ "running" then
           (Outcome.ok ⟨info.Id, o1.name, "running", info.CreatedMs, props⟩,
            base ++ [ApiCall.startContainer info.Id])
         else
           (Outcome.ok ⟨info.Id, o1.name, "created", info.CreatedMs, props⟩,
            base)) := by
  unfold containerHandler
  simp only [hname, hex, hrep]
  split
  · simp_all
  · simp

end Docker

namespace Alchemy

theorem mapHas_iff_mem (l : List (String × α)) (k : String) :
    mapHas l k = true ↔ k ∈ mapKeys l := by
  induction l with
  | nil => simp [mapHas, mapKeys]
  | cons hd tl ih =>
    obtain ⟨k0, v0⟩ := hd
    by_cases h : k0 = k
    · subst h; simp [mapHas, mapKeys]
    · simp only [mapHas, mapKeys, List.map_cons, List.mem_cons]
      rw [Bool.or_eq_true, decide_eq_true_eq]
      constructor
      · rintro (h2 | h2)
        · exact absurd h2 h
        · exact Or.inr ((ih).mp h2)
      · rintro (h2 | h2)
        · exact absurd h2.symm h
        · exact Or.inr ((ih).mpr h2)

theorem mem_of_mapGet_eq_some (l : List (String × α)) (k : String) (v : α)
    (h : mapGet l k = some v) : (k, v) ∈ l := by
  induction l with
  | nil => simp [mapGet] at h
  | cons hd tl ih =>
    obtain ⟨k0, v0⟩ := hd
    by_cases h0 : k0 = k
    · subst h0
      simp [mapGet] at h
      simp [h]
    · simp only [mapGet, if_neg h0] at h
      exact List.mem_cons_of_mem _ (ih h)

theorem mapGet_eq_some_of_mem (l : List (String × α)) (k : String) (v : α)
    (hnd : (mapKeys l).Nodup) (h : (k, v) ∈ l) : mapGet l k = some v := by
  induction l with
  | nil => simp at h
  | cons hd tl ih =>
    obtain ⟨k0, v0⟩ := hd
    simp only [mapKeys, List.map_cons, List.nodup_cons] at hnd
    rcases List.mem_cons.mp h with h1 | h1
    · have hk : k = k0 := congrArg Prod.fst h1
      have hv : v = v0 := congrArg Prod.snd h1
      subst hk
      simp [mapGet, hv]
    · have hk0 : k0 ≠ k := by
        intro hk0
        subst hk0
        exact hnd.1 (by simpa [mapKeys] using List.mem_map_of_mem Prod.fst h1)
      simp only [mapGet, if_neg hk0]
      exact ih hnd.2 h1

theorem mapGet_isSome_iff (l : List (String × α)) (k : String) :
    (mapGet l k).isSome = true ↔ k ∈ mapKeys l := by
  induction l with
  | nil => simp [mapGet, mapKeys]
  | cons hd tl ih =>
    obtain ⟨k0, v0⟩ := hd
    by_cases h : k0 = k
    · subst h; simp [mapGet, mapKeys]
    · simp only [mapGet, if_neg h, mapKeys, List.map_cons, List.mem_cons, ih]
      constructor
      · exact fun h2 => Or.inr h2
      · rintro (h2 | h2)
        · exact absurd h2.symm h
        · exact h2

theorem mem_mapSet (k : String) (v : α) (kv : String × α) :
    ∀ l : List (String × α), kv ∈ mapSet l k v → kv ∈ l ∨ kv = (k, v)
  | [], h => Or.inr (by simpa [mapSet] using h)
  | (k0, v0) :: tl, h => by
    by_cases h0 : k0 = k
    · subst h0
      rw [mapSet, if_pos rfl] at h
      rcases List.mem_cons.mp h with h1 | h1
      · exact Or.inr h1
      · exact Or.inl (List.mem_cons_of_mem _ h1)
    · rw [mapSet, if_neg h0] at h
      rcases List.mem_cons.mp h with h1 | h1
      · exact Or.inl (List.mem_cons.mpr (Or.inl h1))
      · rcases mem_mapSet k v kv tl h1 with h2 | h2
        · exact Or.inl (List.mem_cons_of_mem _ h2)
        · exact Or.inr h2

end Alchemy

namespace Docker

theorem mem_setAdd (s : List String) (x y : String) :
    y ∈ setAdd s x ↔ y ∈ s ∨ y = x := by
  unfold setAdd
  by_cases h : x ∈ s
  · rw [if_pos h]
    constructor
    · exact fun h2 => Or.inl h2
    · rintro (h2 | rfl)
      · exact h2
      · exact h
  · rw [if_neg h]
    simp [List.mem_append]

theorem mem_foldl_setAdd (l : List String) (acc : List String) (y : String) :
    y ∈ l.foldl setAdd acc ↔ y ∈ acc ∨ y ∈ l := by
  induction l generalizing acc with
  | nil => simp
  | cons x tl ih =>
    simp only [List.foldl_cons, ih, mem_setAdd, List.mem_cons]
    tauto

theorem nodup_foldl_setAdd (l : List String) (acc : List String)
    (hacc : acc.Nodup) : (l.foldl setAdd acc).Nodup := by
  induction l generalizing acc with
  | nil => simpa
  | cons x tl ih =>
    apply ih
    unfold setAdd
    by_cases h : x ∈ acc
    · rwa [if_pos h]
    · rw [if_neg h]
      simp [List.nodup_append, hacc, h]

theorem mem_mapKeys_networkFold (l : List NetworkMapping)
    (acc : List (String × NetworkMapping)) (k : String) :
    k ∈ Alchemy.mapKeys (l.foldl (fun m n => Alchemy.mapSet m n.name n) acc)
      ↔ k ∈ Alchemy.mapKeys acc ∨ ∃ d ∈ l, d.name = k := by
  induction l generalizing acc with
  | nil => simp
  | cons x tl ih =>
    simp only [List.foldl_cons, ih, Alchemy.mem_mapKeys_mapSet,
      List.exists_mem_cons_iff]
    constructor
    · rintro (h | h) <;> tauto
    · rintro (h | h | h) <;> tauto

theorem networkFold_value_name (l : List NetworkMapping)
    (acc : List (String × NetworkMapping))
    (hacc : ∀ kv ∈ acc, (kv : String × NetworkMapping).2.name = kv.1) :
    ∀ kv ∈ l.foldl (fun m n => Alchemy.mapSet m n.name n) acc,
      (kv : String × NetworkMapping).2.name = kv.1 := by
  induction l generalizing acc with
  | nil =>
    intro kv hkv
    exact hacc kv hkv
  | cons x tl ih =>
    refine ih _ ?_
    intro kv hkv
    rcases Alchemy.mem_mapSet _ _ _ _ hkv with h | h
    · exact hacc kv h
    · rw [h]

theorem networkFold_has_iff (networks : List NetworkMapping) (n : String) :
    Alchemy.mapHas
        (networks.foldl (fun m d => Alchemy.mapSet m d.name d) []) n = true
      ↔ ∃ d ∈ networks, d.name = n := by
  rw [Alchemy.mapHas_iff_mem, mem_mapKeys_networkFold]
  simp [Alchemy.mapKeys]

/-- **C9**: `getNetworkChanges` never lists the default `bridge` network in
`toDisconnect`; `toDisconnect` is exactly the set of currently-connected
non-bridge networks absent from `props.networks`; and `toConnect` is exactly
(at the network-name level) the set of declared networks not currently
connected. -/
theorem getNetworkChanges_exact (props : ContainerProps)
    (info : ContainerInfo) :
    ("bridge" ∉ (getNetworkChanges props info).2)
    ∧ (∀ n, n ∈ (getNetworkChanges props info).2 ↔
        (n ∈ info.NetworkSettings.Networks.getD []
          ∧ (¬ ∃ d ∈ props.networks.getD [], d.name = n)
          ∧ n ≠ "bridge"))
    ∧ (∀ n, (∃ m ∈ (getNetworkChanges props info).1, m.name = n) ↔
        ((∃ d ∈ props.networks.getD [], d.name = n)
          ∧ n ∉ info.NetworkSettings.Networks.getD [])) := by
  have hdis : ∀ n, n ∈ (getNetworkChanges props info).2 ↔
      (n ∈ info.NetworkSettings.Networks.getD []
        ∧ (¬ ∃ d ∈ props.networks.getD [], d.name = n)
        ∧ n ≠ "bridge") := by
    intro n
    unfold getNetworkChanges
    rw [List.mem_filter]
    simp only [Bool.and_eq_true, Bool.not_eq_true', bne_iff_ne, ne_eq,
      mem_foldl_setAdd, List.not_mem_nil, false_or]
    constructor
    · rintro ⟨h1, h2, h3⟩
      refine ⟨h1, ?_, h3⟩
      intro hex
      rw [(networkFold_has_iff _ n).mpr hex] at h2
      exact Bool.true_eq_false.mp h2
    · rintro ⟨h1, h2, h3⟩
      refine ⟨h1, ?_, h3⟩
      rw [← Bool.not_eq_true]
      intro hhas
      exact h2 ((networkFold_has_iff _ n).mp hhas)
  have hcon : ∀ n, (∃ m ∈ (getNetworkChanges props info).1, m.name = n) ↔
      ((∃ d ∈ props.networks.getD [], d.name = n)
        ∧ n ∉ info.NetworkSettings.Networks.getD []) := by
    intro n
    unfold getNetworkChanges
    constructor
    · rintro ⟨m, hm, rfl⟩
      rw [List.mem_filter] at hm
      obtain ⟨hmv, hq⟩ := hm
      obtain ⟨kv, hkv, hsnd⟩ := List.mem_map.mp hmv
      have hname := networkFold_value_name _ []
        (by intro kv h; simp at h) kv hkv
      constructor
      · have hkeys : m.name ∈ Alchemy.mapKeys
            ((props.networks.getD []).foldl
              (fun m2 d => Alchemy.mapSet m2 d.name d) []) := by
          rw [← hsnd, hname]
          exact List.mem_map_of_mem Prod.fst hkv
        rw [← networkFold_has_iff, Alchemy.mapHas_iff_mem]
        exact hkeys
      · intro hmem
        rw [Bool.not_eq_true'] at hq
        have hmem2 : m.name ∈ (info.NetworkSettings.Networks.getD []).foldl
            setAdd [] :=
          (mem_foldl_setAdd _ _ _).mpr (Or.inr hmem)
        have hc2 : ((info.NetworkSettings.Networks.getD []).foldl
            setAdd []).contains m.name = true :=
          List.elem_iff.mpr hmem2
        rw [hc2] at hq
        exact Bool.true_eq_false.mp hq
    · rintro ⟨hex, hnot⟩
      have hkeys : n ∈ Alchemy.mapKeys
          ((props.networks.getD []).foldl
            (fun m2 d => Alchemy.mapSet m2 d.name d) []) := by
        rw [← Alchemy.mapHas_iff_mem, networkFold_has_iff]
        exact hex
      obtain ⟨kv, hkv, hfst⟩ := List.mem_map.mp hkeys
      have hname := networkFold_value_name _ []
        (by intro kv h; simp at h) kv hkv
      refine ⟨kv.2, ?_, by rw [hname, hfst]⟩
      rw [List.mem_filter]
      refine ⟨List.mem_map_of_mem Prod.snd hkv, ?_⟩
      rw [Bool.not_eq_true']
      rw [hname, hfst]
      by_cases hc : n ∈ (info.NetworkSettings.Networks.getD []).foldl setAdd []
      · exact absurd
          (((mem_foldl_setAdd _ _ _).mp hc).resolve_left (List.not_mem_nil n))
          hnot
      · refine Bool.eq_false_iff.mpr ?_
        intro hcc
        exact hc (List.elem_iff.mp hcc)
  refine ⟨?_, hdis, hcon⟩
  intro hmem
  have := (hdis "bridge").mp hmem
  exact this.2.2 rfl

end Docker

namespace Doppler

/-- **C6**: the retryability classifier used by `fetchDoppler` returns true
iff the error carries no HTTP status (network-level failure), or its status
is 429, or its status is in `[500, 600)`; and when the first attempt fails
with a non-retryable error, the backoff wrapper returns that very error
(original status and message) after exactly one attempt. -/
theorem dopplerIsRetryable_iff (e : DopplerError) (budget : Nat)
    (op : Nat → Except DopplerError A) :
    (dopplerIsRetryable e = true ↔
      (carriesNoHttpStatus e ∨ e.status = some 429 ∨
        ∃ s, e.status = some s ∧ 500 ≤ s ∧ s < 600))
    ∧ (op 0 = Except.error e → dopplerIsRetryable e = false →
        withExponentialBackoff budget op dopplerIsRetryable
          = (Except.error e, 1)) := by
  constructor
  · obtain ⟨status, message⟩ := e
    cases status with
    | none => simp [dopplerIsRetryable, carriesNoHttpStatus]
    | some s =>
      cases s with
      | zero => simp [dopplerIsRetryable, carriesNoHttpStatus]
      | succ n =>
        simp only [dopplerIsRetryable, carriesNoHttpStatus, Bool.or_eq_true,
          beq_iff_eq, Bool.and_eq_true, decide_eq_true_eq, Option.some.injEq,
          reduceCtorEq, false_or, exists_eq_left']
  · intro hop hnr
    cases budget with
    | zero =>
      simp [withExponentialBackoff, withExponentialBackoff.go, hop]
    | succ b =>
      simp [withExponentialBackoff, withExponentialBackoff.go, hop, hnr]

/-- **C6** witness: a 404 error is non-retryable and propagates unchanged
after a single attempt. -/
theorem dopplerIsRetryable_iff_witness :
    withExponentialBackoff 5
        (fun _ => (Except.error ⟨some 404, "Not Found"⟩ : Except DopplerError Nat))
        dopplerIsRetryable
      = (Except.error ⟨some 404, "Not Found"⟩, 1) :=
  (dopplerIsRetryable_iff ⟨some 404, "Not Found"⟩ 5
    (fun _ => Except.error ⟨some 404, "Not Found"⟩)).2 rfl rfl

end Doppler

namespace Sched

/-- The settle events of a dependency list, starting at `index`. -/
def settleEvents (index : Nat) : List (DepResult ε α) → List (SchedEvent ε α)
  | [] => []
  | d :: rest => SchedEvent.settled index d :: settleEvents (index + 1) rest

/-- The values of an all-ok dependency list. -/
def okValues : List (DepResult ε α) → List α
  | [] => []
  | DepResult.ok a :: rest => a :: okValues rest
  | DepResult.failed _ :: rest => okValues rest

theorem settleEvents_length (index : Nat) (deps : List (DepResult ε α)) :
    (settleEvents index deps).length = deps.length := by
  induction deps generalizing index with
  | nil => rfl
  | cons d rest ih => simp [settleEvents, ih]

theorem settleEvents_get (index j : Nat) (deps : List (DepResult ε α))
    (hj : j < deps.length) :
    (settleEvents index deps).get? j
      = some (SchedEvent.settled (index + j) (deps.get ⟨j, hj⟩)) := by
  induction deps generalizing index j with
  | nil => simp at hj
  | cons d rest ih =>
    cases j with
    | zero => simp [settleEvents]
    | succ j2 =>
      have := ih (index + 1) j2 (by simpa using Nat.lt_of_succ_lt_succ hj)
      simp only [settleEvents, List.get?_cons_succ, this, List.get]
      congr 2
      omega

theorem awaitDeps_ok (index : Nat) (deps : List (DepResult ε α))
    (h : firstFailure deps = none) :
    awaitDeps index deps = (Except.ok (okValues deps), settleEvents index deps) := by
  induction deps generalizing index with
  | nil => rfl
  | cons d rest ih =>
    cases d with
    | ok a =>
      have hrest : firstFailure rest = none := by simpa [firstFailure] using h
      simp [awaitDeps, ih (index + 1) hrest, okValues, settleEvents, Except.map]
    | failed e => simp [firstFailure] at h

theorem awaitDeps_failed (index : Nat) (deps : List (DepResult ε α)) (e : ε)
    (h : firstFailure deps = some e) :
    (awaitDeps index deps).1 = Except.error e
    ∧ SchedEvent.handlerStarted ∉ (awaitDeps index deps).2 := by
  induction deps generalizing index with
  | nil => simp [firstFailure] at h
  | cons d rest ih =>
    cases d with
    | ok a =>
      have hrest : firstFailure rest = some e := by simpa [firstFailure] using h
      have := ih (index + 1) hrest
      constructor
      · simp only [awaitDeps]
        rw [this.1]
        rfl
      · simp only [awaitDeps, List.mem_cons]
        rintro (h2 | h2)
        · exact absurd h2.symm (by simp)
        · exact this.2 h2
    | failed e2 =>
      have he : e2 = e := by simpa [firstFailure] using h
      subst he
      simp [awaitDeps]

/-- **C8**: the handler of a resource with `dependsOn` inputs never begins
before every referenced value has settled — in the event trace the settle
event of dependency `i` sits at position `i` and `handlerStarted` sits after
all of them, at position `deps.length` — and if any referenced value fails,
the handler never starts and the apply fails with the first failure's
error. -/
theorem applyWithDeps_gates_handler {ε α β : Type}
    (deps : List (Sched.DepResult ε α)) (handler : List α → β) (e : ε) :
    (firstFailure deps = some e →
      (applyWithDeps deps handler).1 = Except.error e
      ∧ SchedEvent.handlerStarted ∉ (applyWithDeps deps handler).2)
    ∧ (firstFailure deps = none →
      (applyWithDeps deps handler).1 = Except.ok (handler (okValues deps))
      ∧ (∀ j, (hj : j < deps.length) →
          (applyWithDeps deps handler).2.get? j
            = some (SchedEvent.settled j (deps.get ⟨j, hj⟩)))
      ∧ (applyWithDeps deps handler).2.get? deps.length
          = some SchedEvent.handlerStarted) := by
  constructor
  · intro h
    have ha := awaitDeps_failed 0 deps e h
    unfold applyWithDeps
    constructor
    · rcases hq : awaitDeps 0 deps with ⟨r, evs⟩
      rw [hq] at ha
      cases r with
      | ok vals => simp at ha
      | error e2 =>
        have : e2 = e := by simpa using ha.1
        subst this
        simp
    · rcases hq : awaitDeps 0 deps with ⟨r, evs⟩
      rw [hq] at ha
      cases r with
      | ok vals => simp at ha
      | error e2 => simpa using ha.2
  · intro h
    have ha := awaitDeps_ok 0 deps h
    unfold applyWithDeps
    rw [ha]
    refine ⟨rfl, ?_, ?_⟩
    · intro j hj
      have hlen : j < (settleEvents 0 deps).length := by
        rw [settleEvents_length]; exact hj
      rw [List.get?_append hlen, settleEvents_get 0 j deps hj]
      simp
    · rw [List.get?_append_right (by rw [settleEvents_length])]
      rw [settleEvents_length]
      simp

end Sched

namespace Sched

/-- **C8** witness: with a failing second dependency the apply fails with
that error and the handler never starts; with all dependencies settled ok
the handler-start event sits after both settle events. -/
theorem applyWithDeps_gates_handler_witness :
    (applyWithDeps [DepResult.ok 1, DepResult.failed "boom", DepResult.ok 2]
        (fun vs : List Nat => vs.length)).1 = Except.error "boom"
    ∧ SchedEvent.handlerStarted ∉ (applyWithDeps
        [DepResult.ok 1, DepResult.failed "boom", DepResult.ok 2]
        (fun vs : List Nat => vs.length)).2
    ∧ (applyWithDeps
        ([DepResult.ok 1, DepResult.ok 2] : List (DepResult String Nat))
        (fun vs : List Nat => vs.length)).2.get? 2
        = some SchedEvent.handlerStarted := by
  have h1 := (applyWithDeps_gates_handler
    [DepResult.ok 1, DepResult.failed "boom", DepResult.ok 2]
    (fun vs : List Nat => vs.length) "boom").1 rfl
  have h2 := (applyWithDeps_gates_handler
    ([DepResult.ok 1, DepResult.ok 2] : List (DepResult String Nat))
    (fun vs : List Nat => vs.length) "unused").2 rfl
  exact ⟨h1.1, h1.2, h2.2.2⟩

end Sched

namespace EnvFile

/-- The claim's formatting rule for one retained entry: `key=value`, where
the unwrapped value's string form is wrapped in double quotes with embedded
double quotes backslash-escaped whenever it contains a space, `#`, a
newline, a single quote, or a double quote, and is written bare
otherwise. -/
def specEnvFileLine (kv : String × EnvFileVal) : String :=
  let s := valToString (unwrapVal kv.2)
  kv.1 ++ "=" ++
    (if needsQuoting s then dquote ++ escapeDquotes s ++ dquote else s)

theorem envFileLine_of_not_nullish (kv : String × EnvFileVal)
    (h : isNullish kv.2 = false) :
    envFileLine kv = some (specEnvFileLine kv) := by
  obtain ⟨k, v⟩ := kv
  cases v <;> simp_all [envFileLine, specEnvFileLine, isNullish, unwrapVal]

theorem envFileContent_eq_spec (env : List (String × EnvFileVal)) :
    envFileContent env
      = String.intercalate "\n"
          ((env.filter (fun kv => !(isNullish kv.2))).map specEnvFileLine) := by
  unfold envFileContent
  congr 1
  induction env with
  | nil => rfl
  | cons kv rest ih =>
    by_cases h : isNullish kv.2
    · simp [List.filter_cons, h, ih]
    · have h2 : isNullish kv.2 = false := by simpa using h
      simp [List.filter_cons, h2, List.filterMap_cons,
        envFileLine_of_not_nullish kv h2, ih]

/-- **C10**: for every `EnvFile` apply in create or update phase, nullish
entries are omitted from both the written content and the returned env map,
and every retained value is written as a `key=value` line — quoted with
escaped double quotes exactly when its string form contains a space, `#`, a
newline, a single quote, or a double quote — the lines joined by
newlines. -/
theorem envFile_write_and_output (ctx : EnvCtx) (props : EnvFileProps)
    (hphase : ctx.phase = Docker.Phase.create
      ∨ ctx.phase = Docker.Phase.update) :
    (envFileHandler ctx props).1
      = EnvOutcome.ok
          { path := props.path.getD ".env",
            env := props.env.filter (fun kv => !(isNullish kv.2)) }
    ∧ FsCall.writeFile (props.path.getD ".env") (envFileContent props.env)
        ∈ (envFileHandler ctx props).2
    ∧ envFileContent props.env
        = String.intercalate "\n"
            ((props.env.filter (fun kv => !(isNullish kv.2))).map
              specEnvFileLine) := by
  have hnd : ctx.phase ≠ Docker.Phase.delete := by
    rcases hphase with h | h <;> simp [h]
  refine ⟨?_, ?_, envFileContent_eq_spec props.env⟩
  · unfold envFileHandler
    rw [if_neg hnd]
  · unfold envFileHandler
    rw [if_neg hnd]
    simp

/-- **C10** witness: a record with a plain value, a `null`, a secret, and a
double-quoted value produces exactly the filtered output env and the quoted
content. -/
theorem envFile_write_and_output_witness :
    (envFileHandler ⟨Docker.Phase.create, none⟩
        ⟨some "conf/.env",
         [("A", EnvFileVal.str "x y"), ("B", EnvFileVal.nullv),
          ("C", EnvFileVal.secret "s3cr3t"), ("D", EnvFileVal.undef),
          ("E", EnvFileVal.num (-2))]⟩).1
      = EnvOutcome.ok
          { path := "conf/.env",
            env := [("A", EnvFileVal.str "x y"),
                    ("C", EnvFileVal.secret "s3cr3t"),
                    ("E", EnvFileVal.num (-2))] } := by
  have h := envFile_write_and_output ⟨Docker.Phase.create, none⟩
    ⟨some "conf/.env",
     [("A", EnvFileVal.str "x y"), ("B", EnvFileVal.nullv),
      ("C", EnvFileVal.secret "s3cr3t"), ("D", EnvFileVal.undef),
      ("E", EnvFileVal.num (-2))]⟩ (Or.inl rfl)
  rw [h.1]
  rfl

end EnvFile

namespace Docker

/-!
## Concrete fixtures for witnesses and counterexamples
-/

/-- Does a trace contain a `createContainer` call? -/
def hasCreateCall (t : List ApiCall) : Bool :=
  t.any fun c => match c with
    | ApiCall.createContainer _ _ _ => true
    | _ => false

/-- Does a trace contain any remote mutation? -/
def hasMutation (t : List ApiCall) : Bool :=
  t.any ApiCall.isMutation

/-- The id of an `ok` outcome, if any. -/
def Outcome.okId : Outcome → Option String
  | Outcome.ok o => some o.id
  | _ => none

/-- A declaration that starts an nginx container and allows adoption. -/
def nginxProps : ContainerProps :=
  { image := "nginx:latest", start := some true, adopt := some true }

/-- A running container as `docker inspect` would report it right after
`nginxProps` was applied. -/
def runningNginxInfo : ContainerInfo :=
  { Id := "c1", CreatedMs := 1000,
    State := { Status := "running" },
    Config := { Image := "nginx:latest", Cmd := some [], Env := some [] },
    HostConfig := { PortBindings := some [], Binds := some [],
                    RestartPolicy := { Name := "no", MaximumRetryCount := 0 },
                    AutoRemove := false },
    NetworkSettings := { Networks := some [] } }

/-- The Output of the first (create-phase) apply of `nginxProps`. -/
def firstApplyOutput : ContainerOutput :=
  { id := "c1", name := "app-test-web", state := "running", createdAt := 1000,
    props := nginxProps }

/-- A daemon with no container under the resolved name. -/
def freshWorld : DockerWorld :=
  { containerExists := false, containerInfo := runningNginxInfo,
    createdId := "c1", now := 1000 }

/-- A daemon already holding the running nginx container. -/
def adoptWorld : DockerWorld :=
  { containerExists := true, containerInfo := runningNginxInfo,
    createdId := "c2", now := 2000 }

/-- A declaration whose image reference differs from the existing
container's. -/
def imageBumpProps : ContainerProps :=
  { image := "nginx:2", adopt := some true }

/-- A declaration with an explicit name differing from the prior name. -/
def renamedProps : ContainerProps :=
  { image := "nginx:latest", name := some "new-name", start := some true,
    adopt := some true }

end Docker

namespace Docker

/-- **C1** (amended): in a create-phase apply where a container with the
resolved physical name already exists, if `adopt` is not true the handler
throws the conflict error `Container "<name>" already exists. Use adopt:
true to adopt it.` before any remote mutation; if `adopt` is true and the
existing container's configuration does not require recreation
(`shouldReplace` is false), the returned Output's id equals the pre-existing
container's id and `createContainer` is never called. -/
theorem container_create_conflict_or_adopt (props : ContainerProps)
    (pn : String) (w : DockerWorld) (hex : w.containerExists = true) :
    (props.adopt.getD false = false →
      (containerHandler ⟨Phase.create, none, pn⟩ w props).1
        = Outcome.errored ("Container \"" ++ resolveContainerName props none pn
            ++ "\" already exists. Use adopt: true to adopt it.")
      ∧ hasMutation (containerHandler ⟨Phase.create, none, pn⟩ w props).2
          = false)
    ∧ (props.adopt.getD false = true →
       shouldReplace props.image props w.containerInfo = false →
      (containerHandler ⟨Phase.create, none, pn⟩ w props).1.okId
          = some w.containerInfo.Id
      ∧ hasCreateCall (containerHandler ⟨Phase.create, none, pn⟩ w props).2
          = false) := by
  constructor
  · intro hadopt
    rw [containerHandler_create_conflict props pn w hex hadopt]
    exact ⟨rfl, rfl⟩
  · intro hadopt hrep
    rw [containerHandler_create_adopt_keep props pn w hex hadopt hrep]
    simp only []
    constructor
    · split <;> rfl
    · split <;>
        simp [hasCreateCall, List.any_append, List.any_map, Function.comp]

/-- **C1** counterexample: with `adopt: true` but a changed image reference,
the create-phase apply against an existing container removes it and creates
a new one — `createContainer` is called and the returned id (`"c2"`) differs
from the pre-existing container's id (`"c1"`), refuting the unconditional
adopt clause of the claim. -/
theorem container_create_adopt_counterexample :
    imageBumpProps.adopt = some true
    ∧ adoptWorld.containerExists = true
    ∧ (containerHandler ⟨Phase.create, none, "app-test-web"⟩ adoptWorld
        imageBumpProps).1.okId = some "c2"
    ∧ adoptWorld.containerInfo.Id = "c1"
    ∧ hasCreateCall (containerHandler ⟨Phase.create, none, "app-test-web"⟩
        adoptWorld imageBumpProps).2 = true
    ∧ ("c2" : String) ≠ "c1" := by
  refine ⟨rfl, rfl, rfl, rfl, rfl, by decide⟩

/-- **C1** witness: adopting an unchanged existing container returns its id
without calling `createContainer`; without `adopt` the conflict error is
thrown. -/
theorem container_create_conflict_or_adopt_witness :
    (containerHandler ⟨Phase.create, none, "app-test-web"⟩ adoptWorld
        nginxProps).1.okId = some "c1"
    ∧ hasCreateCall (containerHandler ⟨Phase.create, none, "app-test-web"⟩
        adoptWorld nginxProps).2 = false
    ∧ (containerHandler ⟨Phase.create, none, "app-test-web"⟩ adoptWorld
        { nginxProps with adopt := none }).1
      = Outcome.errored
          "Container \"app-test-web\" already exists. Use adopt: true to adopt it." := by
  have h1 := (container_create_conflict_or_adopt nginxProps "app-test-web"
    adoptWorld rfl).2 rfl (by decide)
  have h2 := (container_create_conflict_or_adopt
    { nginxProps with adopt := none } "app-test-web" adoptWorld rfl).1 rfl
  exact ⟨h1.1, h1.2, h2.1⟩

/-- **C2** (amended): a second apply of the same declaration with no
external drift performs no remote mutation beyond inspection and returns an
Output with the same id, name, and createdAt; the Output is identical when
`props.start` is not true, but when `props.start` is true (and the container
is therefore already running) the second apply reports state `"created"`
instead of the first apply's `"running"`. -/
theorem container_reapply_idempotent (props : ContainerProps) (pn : String)
    (w1 w2 : DockerWorld) (o1 : ContainerOutput)
    (h1 : (containerHandler ⟨Phase.create, none, pn⟩ w1 props).1
      = Outcome.ok o1)
    (hex1 : w1.containerExists = false)
    (hex2 : w2.containerExists = true)
    (hid : w2.containerInfo.Id = o1.id)
    (hcr : w2.containerInfo.CreatedMs = o1.createdAt)
    (hrep : shouldReplace props.image props w2.containerInfo = false)
    (hnet : getNetworkChanges props w2.containerInfo = ([], []))
    (hst : w2.containerInfo.State.Status
      = (if props.start.getD false then "running" else "created")) :
    (containerHandler ⟨Phase.update, some o1, pn⟩ w2 props).1
      = Outcome.ok (if props.start.getD false then
          { o1 with state := "created" } else o1)
    ∧ hasMutation
        (containerHandler ⟨Phase.update, some o1, pn⟩ w2 props).2 = false := by
  rw [containerHandler_create_fresh props pn w1 hex1, createAndStart_eq] at h1
  by_cases hstart : props.start.getD false
  · rw [if_pos hstart] at h1
    simp only [Outcome.ok.injEq] at h1
    subst h1
    have hname : resolveContainerName props
        (some ⟨w1.createdId, resolveContainerName props none pn, "running",
          w1.now, props⟩) pn
        = resolveContainerName props none pn := by
      cases hn : props.name <;> simp [resolveContainerName, hn]
    have hres := containerHandler_update_keep props pn w2 _ hname hex2 hrep
    rw [hres]
    simp only [hnet]
    rw [if_neg (by simp [hst, hstart])]
    simp [hid, hcr, hstart, hasMutation, ApiCall.isMutation]
  · rw [if_neg hstart] at h1
    simp only [Outcome.ok.injEq] at h1
    subst h1
    have hname : resolveContainerName props
        (some ⟨w1.createdId, resolveContainerName props none pn, "created",
          w1.now, props⟩) pn
        = resolveContainerName props none pn := by
      cases hn : props.name <;> simp [resolveContainerName, hn]
    have hres := containerHandler_update_keep props pn w2 _ hname hex2 hrep
    rw [hres]
    simp only [hnet]
    rw [if_neg (by simp [hstart])]
    simp [hid, hcr, hstart, hasMutation, ApiCall.isMutation]

/-- **C2** counterexample: applying `nginxProps` (with `start: true`) twice
with no drift yields `state = "running"` the first time and
`state = "created"` the second time, so the second Output is not identical
to the first. -/
theorem container_reapply_counterexample :
    (containerHandler ⟨Phase.create, none, "app-test-web"⟩ freshWorld
        nginxProps).1 = Outcome.ok firstApplyOutput
    ∧ (containerHandler ⟨Phase.update, some firstApplyOutput, "app-test-web"⟩
        adoptWorld nginxProps).1
      = Outcome.ok { firstApplyOutput with state := "created" }
    ∧ firstApplyOutput.state = "running"
    ∧ ({ firstApplyOutput with state := "created" } : ContainerOutput)
        ≠ firstApplyOutput := by
  refine ⟨by decide, by decide, rfl, by decide⟩

/-- **C2** witness: the no-drift second apply of `nginxProps` returns the
first Output with state `"created"` and performs no mutation. -/
theorem container_reapply_idempotent_witness :
    (containerHandler ⟨Phase.update, some firstApplyOutput, "app-test-web"⟩
        adoptWorld nginxProps).1
      = Outcome.ok (if nginxProps.start.getD false then
          { firstApplyOutput with state := "created" } else firstApplyOutput)
    ∧ hasMutation (containerHandler
        ⟨Phase.update, some firstApplyOutput, "app-test-web"⟩
        adoptWorld nginxProps).2 = false :=
  container_reapply_idempotent nginxProps "app-test-web" freshWorld adoptWorld
    firstApplyOutput (by decide) rfl rfl rfl rfl (by decide) (by decide)
    (by decide)

end Docker

namespace Docker

/-- **C4**: on an update-phase apply the physical name resolves to
`props.name` if provided, otherwise the prior Output's name, otherwise
`scope.createPhysicalName(id)`; when the resolved name differs from the
prior name the handler calls `replace()` before any remote call; and when
`props.name` is absent the resolved name equals the prior name and no
name-driven replace (a `replace` without force) occurs. -/
theorem container_update_name_resolution (props : ContainerProps)
    (out : Option ContainerOutput) (prior : ContainerOutput) (pn : String)
    (w : DockerWorld) :
    (resolveContainerName props out pn
      = match props.name, out with
        | some n, _ => n
        | none, some o => o.name
        | none, none => pn)
    ∧ (resolveContainerName props (some prior) pn ≠ prior.name →
        containerHandler ⟨Phase.update, some prior, pn⟩ w props
          = (Outcome.replaced false, []))
    ∧ (props.name = none →
        resolveContainerName props (some prior) pn = prior.name
        ∧ (containerHandler ⟨Phase.update, some prior, pn⟩ w props).1
            ≠ Outcome.replaced false) := by
  refine ⟨resolveContainerName_cases props out pn, ?_, ?_⟩
  · intro hne
    exact containerHandler_update_name_replace props pn w prior hne
  · intro hn
    have hname : resolveContainerName props (some prior) pn = prior.name := by
      simp [resolveContainerName, hn]
    refine ⟨hname, ?_⟩
    by_cases hex : w.containerExists = true
    · by_cases hrep : shouldReplace props.image props w.containerInfo = true
      · rw [containerHandler_update_replace props pn w prior hname hex hrep]
        simp
      · rw [containerHandler_update_keep props pn w prior hname hex
          (by simpa using hrep)]
        simp only []
        split <;> simp
    · rw [containerHandler_update_fresh props pn w prior hname
        (by simpa using hex)]
      obtain ⟨o, ho⟩ := createAndStart_fst_ok w props props.image prior.name
        [ApiCall.containerExists prior.name]
      rw [ho]
      simp

/-- **C4** witness: an explicit differing name triggers `replace()` with no
remote calls; with no explicit name the resolved name equals the prior name
and no name-driven replace occurs. -/
theorem container_update_name_resolution_witness :
    containerHandler ⟨Phase.update, some firstApplyOutput, "app-test-web"⟩
        adoptWorld renamedProps = (Outcome.replaced false, [])
    ∧ resolveContainerName nginxProps (some firstApplyOutput) "app-test-web"
        = firstApplyOutput.name
    ∧ (containerHandler ⟨Phase.update, some firstApplyOutput, "app-test-web"⟩
        adoptWorld nginxProps).1 ≠ Outcome.replaced false := by
  have h1 := (container_update_name_resolution renamedProps none
    firstApplyOutput "app-test-web" adoptWorld).2.1 (by decide)
  have h2 := (container_update_name_resolution nginxProps none
    firstApplyOutput "app-test-web" adoptWorld).2.2 rfl
  exact ⟨h1, h2.1, h2.2⟩

/-- **C5**: when an existing container's configuration requires recreation,
the create-phase handler never calls `replace()` — with adopt it removes the
conflicting remote container itself (`removeContainer` with force) and then
calls `createContainer` — while under the same condition the update-phase
handler returns `replace(true)` and performs no removal itself. -/
theorem container_replace_phase_discipline (props : ContainerProps)
    (pn : String) (w : DockerWorld) (prior : ContainerOutput)
    (hex : w.containerExists = true)
    (hrep : shouldReplace props.image props w.containerInfo = true) :
    (∀ f, (containerHandler ⟨Phase.create, none, pn⟩ w props).1
      ≠ Outcome.replaced f)
    ∧ (props.adopt.getD false = true →
        (containerHandler ⟨Phase.create, none, pn⟩ w props).2.take 4
          = [ApiCall.containerExists (resolveContainerName props none pn),
             ApiCall.inspectContainer (resolveContainerName props none pn),
             ApiCall.removeContainer (resolveContainerName props none pn) true,
             ApiCall.createContainer props.image
               (resolveContainerName props none pn) (createOptions props)])
    ∧ (resolveContainerName props (some prior) pn = prior.name →
        containerHandler ⟨Phase.update, some prior, pn⟩ w props
          = (Outcome.replaced true,
             [ApiCall.containerExists prior.name,
              ApiCall.inspectContainer prior.name])) := by
  refine ⟨?_, ?_, ?_⟩
  · intro f
    by_cases hadopt : props.adopt.getD false = true
    · rw [containerHandler_create_adopt_replace props pn w hex hadopt hrep]
      obtain ⟨o, ho⟩ := createAndStart_fst_ok w props props.image
        (resolveContainerName props none pn)
        [ApiCall.containerExists (resolveContainerName props none pn),
         ApiCall.inspectContainer (resolveContainerName props none pn),
         ApiCall.removeContainer (resolveContainerName props none pn) true]
      rw [ho]
      simp
    · rw [containerHandler_create_conflict props pn w hex
        (by simpa using hadopt)]
      simp
  · intro hadopt
    rw [containerHandler_create_adopt_replace props pn w hex hadopt hrep,
      createAndStart_eq]
    split <;> simp
  · intro hname
    exact containerHandler_update_replace props pn w prior hname hex hrep

/-- **C5** witness: against the running nginx container, a changed image
reference makes the create-phase apply (with adopt) remove then re-create
without replacing, while the update-phase apply returns `replace(true)`
having only inspected. -/
theorem container_replace_phase_discipline_witness :
    (containerHandler ⟨Phase.create, none, "app-test-web"⟩ adoptWorld
        imageBumpProps).1 ≠ Outcome.replaced true
    ∧ (containerHandler ⟨Phase.create, none, "app-test-web"⟩ adoptWorld
        imageBumpProps).2.take 4
      = [ApiCall.containerExists "app-test-web",
         ApiCall.inspectContainer "app-test-web",
         ApiCall.removeContainer "app-test-web" true,
         ApiCall.createContainer "nginx:2" "app-test-web"
           (createOptions imageBumpProps)]
    ∧ containerHandler ⟨Phase.update, some firstApplyOutput, "app-test-web"⟩
        adoptWorld imageBumpProps
      = (Outcome.replaced true,
         [ApiCall.containerExists "app-test-web",
          ApiCall.inspectContainer "app-test-web"]) := by
  have h := container_replace_phase_discipline imageBumpProps "app-test-web"
    adoptWorld firstApplyOutput rfl (by decide)
  exact ⟨h.1 true, h.2.1 rfl, h.2.2 (by decide)⟩

end Docker

namespace Docker

theorem createAndStart_createCall (w : DockerWorld) (props : ContainerProps)
    (img nm : String) (t : List ApiCall) (img2 nm2 : String)
    (opts : CreateOptions)
    (h : ApiCall.createContainer img2 nm2 opts
      ∈ (createAndStart w props img nm t).2) :
    ApiCall.createContainer img2 nm2 opts ∈ t ∨ opts = createOptions props := by
  rw [createAndStart_eq] at h
  split at h <;> simp at h <;> tauto

theorem containerHandler_createCall_opts (ctx : Ctx) (w : DockerWorld)
    (props : ContainerProps) (img nm : String) (opts : CreateOptions)
    (h : ApiCall.createContainer img nm opts
      ∈ (containerHandler ctx w props).2) :
    opts = createOptions props := by
  obtain ⟨ph, out, pn⟩ := ctx
  cases ph with
  | delete =>
    cases out with
    | none => simp [containerHandler] at h
    | some o =>
      by_cases hid : o.id = "" <;> simp [containerHandler, hid] at h
  | create =>
    by_cases hex : w.containerExists = true
    · by_cases hadopt : props.adopt.getD false = false
      · cases out with
        | none => simp [containerHandler, hex, hadopt] at h
        | some o => simp [containerHandler, hex, hadopt] at h
      · by_cases hrep : shouldReplace props.image props w.containerInfo = true
        · cases out with
          | none =>
            simp only [containerHandler, hex, hadopt, hrep] at h
            simp at h
            rcases createAndStart_createCall w props _ _ _ _ _ _ h with h2 | h2
            · simp at h2
            · exact h2
          | some o =>
            simp only [containerHandler, hex, hadopt, hrep] at h
            simp at h
            rcases createAndStart_createCall w props _ _ _ _ _ _ h with h2 | h2
            · simp at h2
            · exact h2
        · cases out with
          | none =>
            by_cases hstart : props.start.getD false = true
            · simp [containerHandler, hex, hadopt, hrep, hstart] at h
              split at h <;> simp at h
            · simp [containerHandler, hex, hadopt, hrep, hstart] at h
          | some o =>
            by_cases hstart : props.start.getD false = true
            · simp [containerHandler, hex, hadopt, hrep, hstart] at h
              split at h <;> simp at h
            · simp [containerHandler, hex, hadopt, hrep, hstart] at h
    · cases out with
      | none =>
        simp only [containerHandler, hex] at h
        simp at h
        rcases createAndStart_createCall w props _ _ _ _ _ _ h with h2 | h2
        · simp at h2
        · exact h2
      | some o =>
        simp only [containerHandler, hex] at h
        simp at h
        rcases createAndStart_createCall w props _ _ _ _ _ _ h with h2 | h2
        · simp at h2
        · exact h2
  | update =>
    cases out with
    | none =>
      by_cases hex : w.containerExists = true
      · by_cases hrep : shouldReplace props.image props w.containerInfo = true
        · simp [containerHandler, hex, hrep] at h
        · by_cases hstart : props.start.getD false = true
          · simp [containerHandler, hex, hrep, hstart] at h
            split at h <;> simp at h
          · simp [containerHandler, hex, hrep, hstart] at h
      · simp only [containerHandler, hex] at h
        simp at h
        rcases createAndStart_createCall w props _ _ _ _ _ _ h with h2 | h2
        · simp at h2
        · exact h2
    | some o =>
      by_cases hname : (o.name
          != resolveContainerName props (some o) pn) = true
      · simp [containerHandler, hname] at h
      · by_cases hex : w.containerExists = true
        · by_cases hrep : shouldReplace props.image props w.containerInfo = true
          · simp [containerHandler, hname, hex, hrep] at h
          · by_cases hstart : props.start.getD false = true
            · simp [containerHandler, hname, hex, hrep, hstart] at h
              split at h <;> simp at h
            · simp [containerHandler, hname, hex, hrep, hstart] at h
        · simp only [containerHandler, hname, hex] at h
          simp at h
          rcases createAndStart_createCall w props _ _ _ _ _ _ h with h2 | h2
          · simp at h2
          · exact h2

end Docker

namespace Docker

/-- A declaration with one plain and one Secret-wrapped environment
variable. -/
def secretEnvProps : ContainerProps :=
  { image := "nginx:latest",
    environment := some
      [("PLAIN", SecretOrString.plain "value1"),
       ("API_KEY", SecretOrString.wrapped ⟨"super-secret-value"⟩)] }

/-- **C7**: `normalizeEnvironment` maps every key's value through
`Secret.unwrap` — a plain string unchanged, a Secret replaced by its exact
plaintext — and every `createContainer` call the handler issues carries
exactly this unwrapped map as its `env` argument. -/
theorem container_env_unwrap (env : List (String × SecretOrString))
    (s : String) (v : Secret) (ctx : Ctx) (w : DockerWorld)
    (props : ContainerProps) (img nm : String) (opts : CreateOptions)
    (hmem : ApiCall.createContainer img nm opts
      ∈ (containerHandler ctx w props).2) :
    normalizeEnvironment (some env)
        = env.map (fun kv => (kv.1, Secret.unwrap kv.2))
    ∧ Secret.unwrap (SecretOrString.plain s) = s
    ∧ Secret.unwrap (SecretOrString.wrapped v) = v.unencrypted
    ∧ opts.env = normalizeEnvironment props.environment := by
  refine ⟨rfl, rfl, rfl, ?_⟩
  rw [containerHandler_createCall_opts ctx w props img nm opts hmem]
  rfl

/-- **C7** witness: creating `secretEnvProps` passes the exact plaintext
environment to `createContainer`. -/
theorem container_env_unwrap_witness :
    (createOptions secretEnvProps).env
      = [("PLAIN", "value1"), ("API_KEY", "super-secret-value")] := by
  have h := container_env_unwrap
    [("PLAIN", SecretOrString.plain "value1"),
     ("API_KEY", SecretOrString.wrapped ⟨"super-secret-value"⟩)]
    "x" ⟨"y"⟩ ⟨Phase.create, none, "app-test-web"⟩ freshWorld secretEnvProps
    "nginx:latest" "app-test-web" (createOptions secretEnvProps) (by decide)
  rw [h.2.2.2]
  rfl

end Docker

namespace Docker

theorem zip_all_beq_eq_iff {α : Type} [DecidableEq α] :
    ∀ (l1 l2 : List α), l1.length = l2.length →
      ((((l1.zip l2).all fun p => p.1 == p.2) = true) ↔ l1 = l2)
  | [], [], _ => by simp
  | [], b :: l2, h => by simp at h
  | a :: l1, [], h => by simp at h
  | a :: l1, b :: l2, h => by
    have hlen : l1.length = l2.length := by simpa using h
    simp [zip_all_beq_eq_iff l1 l2 hlen]

theorem zip_all_pairEq_iff :
    ∀ (l1 l2 : List (String × String)), l1.length = l2.length →
      ((((l1.zip l2).all fun p => p.1.1 == p.2.1 && p.1.2 == p.2.2) = true)
        ↔ l1 = l2)
  | [], [], _ => by simp
  | [], b :: l2, h => by simp at h
  | a :: l1, [], h => by simp at h
  | a :: l1, b :: l2, h => by
    have hlen : l1.length = l2.length := by simpa using h
    simp [zip_all_pairEq_iff l1 l2 hlen, Prod.ext_iff]

theorem commandDiffers_iff (cmd ccmd : List String) :
    commandDiffers cmd ccmd = true ↔ cmd ≠ ccmd := by
  unfold commandDiffers
  by_cases hlen : cmd.length = ccmd.length
  · rw [show (cmd.length != ccmd.length) = false by simp [hlen]]
    simp only [Bool.false_or, Bool.not_eq_true']
    constructor
    · intro hb heq
      have hall : ((cmd.zip ccmd).all fun p => p.1 == p.2) = true :=
        (zip_all_beq_eq_iff cmd ccmd hlen).mpr heq
      rw [hall] at hb
      exact Bool.true_eq_false.mp hb
    · intro hne
      rw [← Bool.not_eq_true]
      intro hall
      exact hne ((zip_all_beq_eq_iff cmd ccmd hlen).mp hall)
  · have hbne : (cmd.length != ccmd.length) = true := by simpa using hlen
    rw [hbne]
    simp only [Bool.true_or, true_iff]
    intro heq
    exact hlen (by rw [heq])

theorem compareEnv_iff (propsEnv : List (String × String))
    (containerEnv : Option (List String)) :
    compareEnv propsEnv containerEnv = true ↔
      sortEnvEntries propsEnv
        = sortEnvEntries (matchedContainerEnv propsEnv containerEnv) := by
  unfold compareEnv
  by_cases hlen : (sortEnvEntries propsEnv).length
      = (sortEnvEntries (matchedContainerEnv propsEnv containerEnv)).length
  · rw [if_neg (by simpa using hlen)]
    exact zip_all_pairEq_iff _ _ hlen
  · rw [if_pos hlen]
    constructor
    · intro hf
      exact absurd hf (by simp)
    · intro heq
      exact absurd (congrArg List.length heq) hlen

/-- The claim-level healthcheck agreement: both absent, or both present with
the same command string and the same five numeric parameters. -/
def specHealthcheckMatch (propsHc : Option HealthcheckConfig)
    (containerHc : Option HealthcheckInfo) : Prop :=
  match propsHc, containerHc with
  | none, none => True
  | some p, some c =>
    (match p.cmd with
      | HCCmd.args l => String.intercalate " " l
      | HCCmd.shell s2 => s2)
      = (match c.Test with
        | some t => String.intercalate " " (t.drop 1)
        | none => "")
    ∧ durationToNanos p.interval = c.Interval.getD 0
    ∧ durationToNanos p.timeout = c.Timeout.getD 0
    ∧ p.retries.getD 0 = c.Retries.getD 0
    ∧ durationToNanos p.startPeriod = c.StartPeriod.getD 0
    ∧ durationToNanos p.startInterval = c.StartInterval.getD 0
  | _, _ => False

theorem compareHealthcheck_iff (propsHc : Option HealthcheckConfig)
    (containerHc : Option HealthcheckInfo) :
    compareHealthcheck propsHc containerHc = true ↔
      specHealthcheckMatch propsHc containerHc := by
  cases propsHc <;> cases containerHc <;>
    simp [compareHealthcheck, specHealthcheckMatch, and_assoc]

end Docker

namespace Docker

theorem normalizePortMappings_keys_nodup (pp : Option (List PortMapping)) :
    (Alchemy.mapKeys (normalizePortMappings pp)).Nodup := by
  unfold normalizePortMappings
  generalize pp.getD [] = l
  suffices h : ∀ acc : List (String × Option String),
      (Alchemy.mapKeys acc).Nodup →
      (Alchemy.mapKeys (l.foldl
        (fun m port =>
          let protocol := port.protocol.getD "tcp"
          let container := port.internal ++ "/" ++ protocol
          Alchemy.mapSet m container port.external) acc)).Nodup by
    exact h [] (by simp [Alchemy.mapKeys])
  induction l with
  | nil => exact fun acc h => h
  | cons p tl ih =>
    intro acc h
    simp only [List.foldl_cons]
    exact ih _ (Alchemy.mapKeys_mapSet_nodup _ _ _ h)

theorem containerPortMap_keys_nodup
    (cp : Option (List (String × Option (List PortBindingEntry)))) :
    (Alchemy.mapKeys (containerPortMap cp)).Nodup := by
  unfold containerPortMap
  generalize cp.getD [] = l
  suffices h : ∀ acc : List (String × Option String),
      (Alchemy.mapKeys acc).Nodup →
      (Alchemy.mapKeys (l.foldl
        (fun m kv =>
          match kv.2 with
          | some (b :: _) =>
            Alchemy.mapSet m kv.1
              (if b.HostPort = "" then none else some b.HostPort)
          | _ => m) acc)).Nodup by
    exact h [] (by simp [Alchemy.mapKeys])
  induction l with
  | nil => exact fun acc h => h
  | cons kv tl ih =>
    intro acc h
    simp only [List.foldl_cons]
    obtain ⟨k, vb⟩ := kv
    cases vb with
    | none => exact ih _ h
    | some lb =>
      cases lb with
      | nil => exact ih _ h
      | cons b rest => exact ih _ (Alchemy.mapKeys_mapSet_nodup _ _ _ h)

theorem normalizeVolumeMappings_nodup (pv : Option (List VolumeMapping)) :
    (normalizeVolumeMappings pv).Nodup := by
  unfold normalizeVolumeMappings
  generalize pv.getD [] = l
  suffices h : ∀ acc : List String, acc.Nodup →
      (l.foldl
        (fun s volume =>
          let readOnlyFlag := if volume.readOnly then ":ro" else ""
          setAdd s (volume.hostPath ++ ":" ++ volume.containerPath
            ++ readOnlyFlag)) acc).Nodup by
    exact h [] (by simp)
  induction l with
  | nil => exact fun acc h => h
  | cons v tl ih =>
    intro acc h
    simp only [List.foldl_cons]
    refine ih _ ?_
    unfold setAdd
    by_cases hx : (v.hostPath ++ ":" ++ v.containerPath
        ++ (if v.readOnly then ":ro" else "")) ∈ acc
    · simpa [hx] using h
    · simp [hx, List.nodup_append, h]

/-- The claim-level port-binding agreement: the declared and actual maps
expose the same container ports, and every declared port with an explicit
external host port is bound to exactly that host port (a declared port with
no external host port matches any actual binding). -/
def specPortsMatch (propsPorts : Option (List PortMapping))
    (containerPorts : Option (List (String × Option (List PortBindingEntry)))) :
    Prop :=
  (∀ k, k ∈ Alchemy.mapKeys (normalizePortMappings propsPorts)
      ↔ k ∈ Alchemy.mapKeys (containerPortMap containerPorts))
  ∧ ∀ k h, Alchemy.mapGet (normalizePortMappings propsPorts) k = some (some h)
      → Alchemy.mapGet (containerPortMap containerPorts) k = some (some h)

theorem comparePorts_def (propsPorts : Option (List PortMapping))
    (containerPorts : Option (List (String × Option (List PortBindingEntry)))) :
    comparePorts propsPorts containerPorts
      = if (normalizePortMappings propsPorts).length
            ≠ (containerPortMap containerPorts).length then false
        else (normalizePortMappings propsPorts).all
          (fun kv =>
            Alchemy.mapHas (containerPortMap containerPorts) kv.1 &&
            match kv.2 with
            | none => true
            | some desired =>
              Alchemy.mapGet (containerPortMap containerPorts) kv.1
                == some (some desired)) := rfl

theorem comparePorts_iff (propsPorts : Option (List PortMapping))
    (containerPorts : Option (List (String × Option (List PortBindingEntry)))) :
    comparePorts propsPorts containerPorts = true ↔
      specPortsMatch propsPorts containerPorts := by
  have hnd1 := normalizePortMappings_keys_nodup propsPorts
  have hnd2 := containerPortMap_keys_nodup containerPorts
  rw [comparePorts_def]
  by_cases hlen : (normalizePortMappings propsPorts).length
      = (containerPortMap containerPorts).length
  · rw [if_neg (by simpa using hlen)]
    rw [List.all_eq_true]
    constructor
    · intro hall
      have hsub : Alchemy.mapKeys (normalizePortMappings propsPorts)
          ⊆ Alchemy.mapKeys (containerPortMap containerPorts) := by
        intro k hk
        obtain ⟨kv, hkv, hfst⟩ := List.mem_map.mp hk
        subst hfst
        have hx := hall kv hkv
        rw [Bool.and_eq_true] at hx
        exact (Alchemy.mapHas_iff_mem _ kv.1).mp hx.1
      have hperm : List.Perm (Alchemy.mapKeys (normalizePortMappings propsPorts))
          (Alchemy.mapKeys (containerPortMap containerPorts)) :=
        (List.subperm_of_subset hnd1 hsub).perm_of_length_le
          (by simpa [Alchemy.mapKeys] using hlen.symm.le)
      refine ⟨fun k => hperm.mem_iff, ?_⟩
      intro k hport hget
      have hmem := Alchemy.mem_of_mapGet_eq_some _ k (some hport) hget
      have hx := hall _ hmem
      rw [Bool.and_eq_true] at hx
      exact eq_of_beq hx.2
    · rintro ⟨hkeys, hget⟩
      intro kv hkv
      rw [Bool.and_eq_true]
      constructor
      · rw [Alchemy.mapHas_iff_mem]
        exact (hkeys kv.1).mp (List.mem_map_of_mem Prod.fst hkv)
      · obtain ⟨k, vv⟩ := kv
        cases vv with
        | none => simp
        | some d =>
          have hg : Alchemy.mapGet (normalizePortMappings propsPorts) k
              = some (some d) :=
            Alchemy.mapGet_eq_some_of_mem _ k (some d) hnd1 hkv
          have := hget k d hg
          simp [this]
  · rw [if_pos hlen]
    constructor
    · intro hf
      exact absurd hf (by simp)
    · rintro ⟨hkeys, -⟩
      exfalso
      have hperm : List.Perm (Alchemy.mapKeys (normalizePortMappings propsPorts))
          (Alchemy.mapKeys (containerPortMap containerPorts)) :=
        (List.perm_ext_iff_of_nodup hnd1 hnd2).mpr hkeys
      exact hlen (by simpa [Alchemy.mapKeys] using hperm.length_eq)

/-- The claim-level volume agreement: the normalized declared bind strings
are exactly the container's `HostConfig.Binds`. -/
def specVolumesMatch (propsVolumes : Option (List VolumeMapping))
    (containerBinds : Option (List String)) : Prop :=
  ∀ b, b ∈ normalizeVolumeMappings propsVolumes ↔ b ∈ containerBinds.getD []

theorem compareVolumes_iff (propsVolumes : Option (List VolumeMapping))
    (containerBinds : Option (List String)) :
    compareVolumes propsVolumes containerBinds = true ↔
      specVolumesMatch propsVolumes containerBinds := by
  have hnd1 := normalizeVolumeMappings_nodup propsVolumes
  have hnd2 : (containerBindsSet containerBinds).Nodup :=
    nodup_foldl_setAdd _ _ (by simp)
  have hmemset : ∀ b, b ∈ containerBindsSet containerBinds
      ↔ b ∈ containerBinds.getD [] := by
    intro b
    unfold containerBindsSet
    rw [mem_foldl_setAdd]
    simp
  have hdef : compareVolumes propsVolumes containerBinds
      = if (normalizeVolumeMappings propsVolumes).length
            ≠ (containerBindsSet containerBinds).length then false
        else (normalizeVolumeMappings propsVolumes).all
          (fun b => (containerBindsSet containerBinds).contains b) := rfl
  rw [hdef]
  by_cases hlen : (normalizeVolumeMappings propsVolumes).length
      = (containerBindsSet containerBinds).length
  · rw [if_neg (by simpa using hlen)]
    rw [List.all_eq_true]
    constructor
    · intro hall
      have hsub : normalizeVolumeMappings propsVolumes
          ⊆ containerBindsSet containerBinds := by
        intro b hb
        exact List.elem_iff.mp (hall b hb)
      have hperm := (List.subperm_of_subset hnd1 hsub).perm_of_length_le
        hlen.symm.le
      intro b
      rw [hperm.mem_iff]
      exact hmemset b
    · intro hspec
      intro b hb
      exact List.elem_iff.mpr ((hmemset b).mpr ((hspec b).mp hb))
  · rw [if_pos hlen]
    constructor
    · intro hf
      exact absurd hf (by simp)
    · intro hspec
      exfalso
      have hiff : ∀ b, b ∈ normalizeVolumeMappings propsVolumes
          ↔ b ∈ containerBindsSet containerBinds := by
        intro b
        rw [hmemset b]
        exact hspec b
      have hperm := (List.perm_ext_iff_of_nodup hnd1 hnd2).mpr hiff
      exact hlen hperm.length_eq

end Docker

namespace Docker

theorem shouldReplace_eq (imageRef : String) (props : ContainerProps)
    (info : ContainerInfo) :
    shouldReplace imageRef props info
      = !((info.Config.Image == imageRef)
        && !(match props.command with
            | some cmd => commandDiffers cmd (info.Config.Cmd.getD [])
            | none => false)
        && compareEnv (normalizeEnvironment props.environment) info.Config.Env
        && comparePorts props.ports info.HostConfig.PortBindings
        && compareVolumes props.volumes info.HostConfig.Binds
        && compareHealthcheck props.healthcheck info.Config.Healthcheck
        && compareRestartPolicy props.restart info.HostConfig.RestartPolicy
        && (props.removeOnExit.getD false == info.HostConfig.AutoRemove)) := by
  unfold shouldReplace
  by_cases h1 : info.Config.Image = imageRef
  case neg =>
    rw [if_pos h1]
    rw [show (info.Config.Image == imageRef) = false by simp [h1]]
    simp
  case pos =>
    rw [if_neg (by simp [h1])]
    rw [show (info.Config.Image == imageRef) = true by simp [h1],
      Bool.true_and]
    by_cases h2 : (match props.command with
        | some cmd => commandDiffers cmd (info.Config.Cmd.getD [])
        | none => false) = true
    · rw [if_pos h2, h2]
      simp
    · have hb2 : (match props.command with
          | some cmd => commandDiffers cmd (info.Config.Cmd.getD [])
          | none => false) = false := by
        simpa using h2
      rw [if_neg h2, hb2]
      simp only [Bool.not_false, Bool.true_and]
      by_cases h3 : compareEnv (normalizeEnvironment props.environment)
          info.Config.Env = true
      · rw [if_neg (by simp [h3]), h3, Bool.true_and]
        by_cases h4 : comparePorts props.ports
            info.HostConfig.PortBindings = true
        · rw [if_neg (by simp [h4]), h4, Bool.true_and]
          by_cases h5 : compareVolumes props.volumes
              info.HostConfig.Binds = true
          · rw [if_neg (by simp [h5]), h5, Bool.true_and]
            by_cases h6 : compareHealthcheck props.healthcheck
                info.Config.Healthcheck = true
            · rw [if_neg (by simp [h6]), h6, Bool.true_and]
              by_cases h7 : compareRestartPolicy props.restart
                  info.HostConfig.RestartPolicy = true
              · rw [if_neg (by simp [h7]), h7, Bool.true_and]
                by_cases h8 : props.removeOnExit.getD false
                    = info.HostConfig.AutoRemove
                · rw [if_neg (by simp [h8])]
                  simp [h8]
                · rw [if_pos (by simp [h8])]
                  simp [h8]
              · have hb7 : compareRestartPolicy props.restart
                    info.HostConfig.RestartPolicy = false := by
                  simpa using h7
                rw [if_pos (by simp [hb7]), hb7]
                simp
            · have hb6 : compareHealthcheck props.healthcheck
                  info.Config.Healthcheck = false := by
                simpa using h6
              rw [if_pos (by simp [hb6]), hb6]
              simp
          · have hb5 : compareVolumes props.volumes
                info.HostConfig.Binds = false := by
              simpa using h5
            rw [if_pos (by simp [hb5]), hb5]
            simp
        · have hb4 : comparePorts props.ports
              info.HostConfig.PortBindings = false := by
            simpa using h4
          rw [if_pos (by simp [hb4]), hb4]
          simp
      · have hb3 : compareEnv (normalizeEnvironment props.environment)
            info.Config.Env = false := by
          simpa using h3
        rw [if_pos (by simp [hb3]), hb3]
        simp

/-- **C3**: `shouldReplace` returns true iff the declared image reference
differs from `Config.Image`, or the declared command (when set) differs from
`Config.Cmd`, or the declared environment variables (after secret
unwrapping) differ from the matching container env entries, or the declared
port bindings differ from `HostConfig.PortBindings` (a declared port with no
external host port matching any actual host port), or the volumes,
healthcheck, restart policy, or `removeOnExit` differ — and it returns false
when every one of these facets matches. -/
theorem shouldReplace_iff (imageRef : String) (props : ContainerProps)
    (info : ContainerInfo) :
    shouldReplace imageRef props info = true ↔
      (info.Config.Image ≠ imageRef
       ∨ (∃ cmd, props.command = some cmd ∧ cmd ≠ info.Config.Cmd.getD [])
       ∨ sortEnvEntries (normalizeEnvironment props.environment)
           ≠ sortEnvEntries (matchedContainerEnv
               (normalizeEnvironment props.environment) info.Config.Env)
       ∨ ¬ specPortsMatch props.ports info.HostConfig.PortBindings
       ∨ ¬ specVolumesMatch props.volumes info.HostConfig.Binds
       ∨ ¬ specHealthcheckMatch props.healthcheck info.Config.Healthcheck
       ∨ props.restart.getD "no" ≠ info.HostConfig.RestartPolicy.Name
       ∨ props.removeOnExit.getD false ≠ info.HostConfig.AutoRemove) := by
  have hcmd : ((match props.command with
      | some cmd => commandDiffers cmd (info.Config.Cmd.getD [])
      | none => false) = true)
      ↔ (∃ cmd, props.command = some cmd
          ∧ cmd ≠ info.Config.Cmd.getD []) := by
    cases hc : props.command with
    | none => simp
    | some c => simp [commandDiffers_iff]
  have henv := compareEnv_iff (normalizeEnvironment props.environment)
    info.Config.Env
  have hports := comparePorts_iff props.ports info.HostConfig.PortBindings
  have hvols := compareVolumes_iff props.volumes info.HostConfig.Binds
  have hhc := compareHealthcheck_iff props.healthcheck info.Config.Healthcheck
  have hrp : compareRestartPolicy props.restart info.HostConfig.RestartPolicy
      = true
      ↔ props.restart.getD "no" = info.HostConfig.RestartPolicy.Name := by
    simp [compareRestartPolicy]
  have hconj : ((info.Config.Image == imageRef)
        && !(match props.command with
            | some cmd => commandDiffers cmd (info.Config.Cmd.getD [])
            | none => false)
        && compareEnv (normalizeEnvironment props.environment) info.Config.Env
        && comparePorts props.ports info.HostConfig.PortBindings
        && compareVolumes props.volumes info.HostConfig.Binds
        && compareHealthcheck props.healthcheck info.Config.Healthcheck
        && compareRestartPolicy props.restart info.HostConfig.RestartPolicy
        && (props.removeOnExit.getD false == info.HostConfig.AutoRemove))
          = true
      ↔ (info.Config.Image = imageRef
        ∧ ¬(∃ cmd, props.command = some cmd ∧ cmd ≠ info.Config.Cmd.getD [])
        ∧ sortEnvEntries (normalizeEnvironment props.environment)
            = sortEnvEntries (matchedContainerEnv
                (normalizeEnvironment props.environment) info.Config.Env)
        ∧ specPortsMatch props.ports info.HostConfig.PortBindings
        ∧ specVolumesMatch props.volumes info.HostConfig.Binds
        ∧ specHealthcheckMatch props.healthcheck info.Config.Healthcheck
        ∧ props.restart.getD "no" = info.HostConfig.RestartPolicy.Name
        ∧ props.removeOnExit.getD false = info.HostConfig.AutoRemove) := by
    rw [Bool.and_eq_true, Bool.and_eq_true, Bool.and_eq_true,
      Bool.and_eq_true, Bool.and_eq_true, Bool.and_eq_true, Bool.and_eq_true]
    rw [Bool.not_eq_true', ← Bool.not_eq_true]
    rw [hcmd, henv, hports, hvols, hhc, hrp]
    rw [show ((info.Config.Image == imageRef) = true)
        = (info.Config.Image = imageRef) from by simp]
    rw [show ((props.removeOnExit.getD false
          == info.HostConfig.AutoRemove) = true)
        = (props.removeOnExit.getD false = info.HostConfig.AutoRemove)
        from by simp]
    tauto
  rw [shouldReplace_eq, Bool.not_eq_true', ← Bool.not_eq_true, hconj]
  constructor
  · intro h
    by_cases himg : info.Config.Image = imageRef
    · by_cases hc2 : ∃ cmd, props.command = some cmd
          ∧ cmd ≠ info.Config.Cmd.getD []
      · exact Or.inr (Or.inl hc2)
      · by_cases he : sortEnvEntries (normalizeEnvironment props.environment)
            = sortEnvEntries (matchedContainerEnv
                (normalizeEnvironment props.environment) info.Config.Env)
        · by_cases hp : specPortsMatch props.ports info.HostConfig.PortBindings
          · by_cases hv : specVolumesMatch props.volumes info.HostConfig.Binds
            · by_cases hh : specHealthcheckMatch props.healthcheck
                  info.Config.Healthcheck
              · by_cases hr : props.restart.getD "no"
                    = info.HostConfig.RestartPolicy.Name
                · by_cases h8 : props.removeOnExit.getD false
                      = info.HostConfig.AutoRemove
                  · exact absurd ⟨himg, hc2, he, hp, hv, hh, hr, h8⟩ h
                  · exact Or.inr (Or.inr (Or.inr (Or.inr (Or.inr (Or.inr
                      (Or.inr h8))))))
                · exact Or.inr (Or.inr (Or.inr (Or.inr (Or.inr (Or.inr
                    (Or.inl hr))))))
              · exact Or.inr (Or.inr (Or.inr (Or.inr (Or.inr (Or.inl hh)))))
            · exact Or.inr (Or.inr (Or.inr (Or.inr (Or.inl hv))))
          · exact Or.inr (Or.inr (Or.inr (Or.inl hp)))
        · exact Or.inr (Or.inr (Or.inl he))
    · exact Or.inl himg
  · intro h hconj2
    obtain ⟨himg, hc2, he, hp, hv, hh, hr, h8⟩ := hconj2
    rcases h with h | h | h | h | h | h | h | h
    · exact absurd himg h
    · exact absurd h hc2
    · exact absurd he h
    · exact absurd hp h
    · exact absurd hv h
    · exact absurd hh h
    · exact absurd hr h
    · exact absurd h8 h

end Docker
